import Mathlib

/-!
Verification of the RDKit `MolDraw2D` drawing engine
(`Code/GraphMol/MolDraw2D/MolDraw2D.cpp`) against its specification.

The C++ code is shallowly embedded: `double` values are modelled as exact
rationals, and the C math library's `sqrt` is passed explicitly as a function
argument wherever the source calls it, so that every definition stays
executable.  Graph lookups performed through `ROMol` (degrees, ring
membership, the coordinates of a neighbouring atom located by a search) are
supplied as explicit inputs carrying the value the search would produce.
-/

/-- Two-dimensional point, as in `RDGeom::Point2D`, with exact rational
components. -/
@[ext] structure Point2D where
  x : ℚ
  y : ℚ
deriving DecidableEq

instance : Add Point2D where
  add p q := ⟨p.x + q.x, p.y + q.y⟩

instance : Sub Point2D where
  sub p q := ⟨p.x - q.x, p.y - q.y⟩

instance : Neg Point2D where
  neg p := ⟨-p.x, -p.y⟩

/-- Scalar multiplication `p * a`, as in `RDGeom::Point2D::operator*`. -/
instance : HMul Point2D ℚ Point2D where
  hMul p a := ⟨p.x * a, p.y * a⟩

/-- Scalar division `p / a`, as in `RDGeom::Point2D::operator/`. -/
instance : HDiv Point2D ℚ Point2D where
  hDiv p a := ⟨p.x / a, p.y / a⟩

theorem Point2D.add_def (p q : Point2D) : p + q = ⟨p.x + q.x, p.y + q.y⟩ := rfl

theorem Point2D.sub_def (p q : Point2D) : p - q = ⟨p.x - q.x, p.y - q.y⟩ := rfl

theorem Point2D.neg_def (p : Point2D) : -p = ⟨-p.x, -p.y⟩ := rfl

theorem Point2D.mul_def (p : Point2D) (a : ℚ) : p * a = ⟨p.x * a, p.y * a⟩ := rfl

theorem Point2D.div_def (p : Point2D) (a : ℚ) : p / a = ⟨p.x / a, p.y / a⟩ := rfl

/-- Transform state of a `MolDraw2D` object: the scale factor, world-space
minima and ranges, translation, pixel offsets, panel height and legend height
(`scale_`, `x_min_`, `y_min_`, `x_range_`, `y_range_`, `x_trans_`, `y_trans_`,
`x_offset_`, `y_offset_`, `panelHeight()`, `legend_height_`). -/
structure DrawState where
  scale : ℚ
  x_min : ℚ
  y_min : ℚ
  x_range : ℚ
  y_range : ℚ
  x_trans : ℚ
  y_trans : ℚ
  x_offset : ℚ
  y_offset : ℚ
  panelHeight : ℚ
  legendHeight : ℚ
deriving DecidableEq

/-- `MolDraw2D::getDrawCoords(const Point2D &)` (MolDraw2D.cpp:1084-1093):
transform a point from the molecule's coordinate system to drawing-system
coordinates. -/
def getDrawCoords (st : DrawState) (mol_cds : Point2D) : Point2D :=
  let x := st.scale * (mol_cds.x - st.x_min + st.x_trans)
  let y := st.scale * (mol_cds.y - st.y_min + st.y_trans)
  -- y is now the distance from the top of the image, we need to invert that:
  let x := x + st.x_offset
  let y := y - st.y_offset
  let y := st.panelHeight - st.legendHeight - y
  ⟨x, y⟩

/-- `MolDraw2D::getAtomCoords(const pair<double, double> &)`
(MolDraw2D.cpp:1107-1114): transform a point from drawing-system coordinates
back to the molecule's coordinate system. -/
def getAtomCoords (st : DrawState) (screen_cds : ℚ × ℚ) : Point2D :=
  let screen_x := screen_cds.1 - st.x_offset
  let screen_y := screen_cds.2 - st.y_offset
  let x := screen_x / st.scale + st.x_min - st.x_trans
  let y := st.y_min - st.y_trans -
    (screen_y - st.panelHeight + st.legendHeight) / st.scale
  ⟨x, y⟩

/-- C1: for every 2D point `p` and every transform state with nonzero scale,
`getAtomCoords` undoes `getDrawCoords` and vice versa: the two conversions are
mutual inverses (exactly, over the rationals). -/
theorem getDrawCoords_getAtomCoords_inverses (st : DrawState) (p : Point2D)
    (s : ℚ × ℚ) (hs : st.scale ≠ 0) :
    getAtomCoords st ((getDrawCoords st p).x, (getDrawCoords st p).y) = p ∧
    (getDrawCoords st (getAtomCoords st s)).x = s.1 ∧
    (getDrawCoords st (getAtomCoords st s)).y = s.2 := by
  refine ⟨?_, ?_, ?_⟩
  · simp only [getDrawCoords, getAtomCoords]
    ext <;> field_simp <;> ring
  · simp only [getDrawCoords, getAtomCoords]
    field_simp
    ring
  · simp only [getDrawCoords, getAtomCoords]
    field_simp
    ring

/-- Example transform state with nonzero scale used to witness the round-trip
theorem. -/
def exampleState : DrawState :=
  { scale := 2, x_min := 1, y_min := -1, x_range := 10, y_range := 10
    x_trans := 3, y_trans := 4, x_offset := 5, y_offset := 6
    panelHeight := 300, legendHeight := 20 }

theorem getDrawCoords_getAtomCoords_inverses_witness :
    exampleState.scale ≠ 0 ∧
    (getAtomCoords exampleState
        ((getDrawCoords exampleState ⟨3, 7⟩).x,
         (getDrawCoords exampleState ⟨3, 7⟩).y) = ⟨3, 7⟩ ∧
     (getDrawCoords exampleState (getAtomCoords exampleState (8, 9))).x = 8 ∧
     (getDrawCoords exampleState (getAtomCoords exampleState (8, 9))).y = 9) :=
  ⟨by decide,
   getDrawCoords_getAtomCoords_inverses exampleState ⟨3, 7⟩ (8, 9) (by decide)⟩

/-- Transform state with a nonzero vertical pixel offset, on which the claimed
device-y formula of C4 disagrees with the code. -/
def offsetState : DrawState :=
  { scale := 1, x_min := 0, y_min := 0, x_range := 10, y_range := 10
    x_trans := 0, y_trans := 0, x_offset := 0, y_offset := 1
    panelHeight := 100, legendHeight := 0 }

/-- C4 counterexample: with `y_offset = 1`, `panelHeight = 100`, zero legend,
unit scale and zero translation, the code maps the origin to device
`y = 101` (the vertical offset is subtracted from the scaled coordinate
before the axis flip, so it ends up added), while the claimed formula
`(panelHeight − legendHeight − scale·(p.y − y_min + y_trans)) − y_offset`
gives `99`. -/
theorem getDrawCoords_y_offset_counterexample :
    (getDrawCoords offsetState ⟨0, 0⟩).y = 101 ∧
    offsetState.panelHeight - offsetState.legendHeight -
        offsetState.scale * ((0 : ℚ) - offsetState.y_min + offsetState.y_trans) -
        offsetState.y_offset = 99 ∧
    (101 : ℚ) ≠ 99 := by
  refine ⟨?_, ?_, ?_⟩
  · norm_num [getDrawCoords, offsetState]
  · norm_num [offsetState]
  · norm_num

/-- C4 (amended): the molecule-to-device conversion applies, in this order:
scale, horizontal translation, horizontal pixel offset; and for y it applies
scale and vertical translation, subtracts the vertical pixel offset, and then
flips the vertical axis relative to panel height minus legend height — so the
device y coordinate equals
`panelHeight − legendHeight − scale·(p.y − y_min + y_trans) + y_offset`. -/
theorem getDrawCoords_formula (st : DrawState) (p : Point2D) :
    getDrawCoords st p =
      ⟨st.scale * (p.x - st.x_min + st.x_trans) + st.x_offset,
       st.panelHeight - st.legendHeight -
         st.scale * (p.y - st.y_min + st.y_trans) + st.y_offset⟩ := by
  simp only [getDrawCoords]
  ext
  · rfl
  · show st.panelHeight - st.legendHeight -
      (st.scale * (p.y - st.y_min + st.y_trans) - st.y_offset) = _
    ring

/-- Depths of the per-molecule render-context stacks of a `MolDraw2D` object,
together with the active molecule index (`at_cds_`, `atomic_nums_`,
`atom_syms_`, `annotations_`, `pre_shapes_`, `post_shapes_`, `radicals_`,
`activeMolIdx_`).  The extraction passes mutate only the contents of the top
entries, so the push/pop discipline is fully captured by the depths and the
index. -/
structure ContextStacks where
  at_cds : ℕ
  atomic_nums : ℕ
  atom_syms : ℕ
  annotations : ℕ
  pre_shapes : ℕ
  post_shapes : ℕ
  radicals : ℕ
  activeMolIdx : ℤ
deriving DecidableEq

/-- `MolDraw2D::pushDrawDetails()` (MolDraw2D.cpp:1688-1698): push a fresh
empty entry on every per-molecule stack and increment `activeMolIdx_`. -/
def pushDrawDetails (s : ContextStacks) : ContextStacks :=
  { at_cds := s.at_cds + 1
    atomic_nums := s.atomic_nums + 1
    atom_syms := s.atom_syms + 1
    annotations := s.annotations + 1
    pre_shapes := s.pre_shapes + 1
    post_shapes := s.post_shapes + 1
    radicals := s.radicals + 1
    activeMolIdx := s.activeMolIdx + 1 }

/-- `MolDraw2D::popDrawDetails()` (MolDraw2D.cpp:1701-1710): decrement
`activeMolIdx_` and pop every per-molecule stack. -/
def popDrawDetails (s : ContextStacks) : ContextStacks :=
  { at_cds := s.at_cds - 1
    atomic_nums := s.atomic_nums - 1
    atom_syms := s.atom_syms - 1
    annotations := s.annotations - 1
    pre_shapes := s.pre_shapes - 1
    post_shapes := s.post_shapes - 1
    radicals := s.radicals - 1
    activeMolIdx := s.activeMolIdx - 1 }

/-- Canvas drawing primitives emitted during `MolDraw2D::drawMolecule`,
classified by the pass that emits them. -/
inductive Primitive where
  /-- rectangle drawn by `setupMoleculeDraw` for a `drawOptions().atomRegions`
  entry -/
  | regionRect : Primitive
  /-- output of `drawShapes(pre_shapes_[activeMolIdx_])` -/
  | preShapePrim : Primitive
  /-- output of the continuous-highlight / circled-atom pass -/
  | highlightPrim : Primitive
  /-- a bond drawn by `drawBonds` -/
  | bondPrim : Primitive
  /-- an atom symbol drawn by `finishMoleculeDraw` -/
  | atomLabelPrim : Primitive
  /-- an annotation or radical mark drawn by `finishMoleculeDraw` -/
  | annotationPrim : Primitive
deriving DecidableEq

/-- Inputs of one `MolDraw2D::drawMolecule` call that the draw-pass model
depends on.  The primitive lists over-approximate the output of the
highlighting pass, of `drawBonds` and of `finishMoleculeDraw`; none of those
passes pushes or pops a render context. -/
structure DrawMoleculeEnv where
  /-- whether `draw_mol.getNumConformers() != 0` holds after
  `prepareMolForDrawing` ran inside `setupDrawMolecule` -/
  hasConformer : Bool
  /-- sizes of the `drawOptions().atomRegions` entries -/
  atomRegions : List ℕ
  /-- whether `pre_shapes_[activeMolIdx_]` is nonempty -/
  preShapesNonempty : Bool
  /-- primitives of the highlighting pass (continuous or circled atoms) -/
  highlightTrace : List Primitive
  /-- primitives emitted by `drawBonds` -/
  bondsTrace : List Primitive
  /-- primitives emitted by `finishMoleculeDraw` -/
  finishTrace : List Primitive

/-- `MolDraw2D::drawMolecule` (MolDraw2D.cpp:417-499) as a trace/state model.
It pushes a render context (`pushDrawDetails()` at line 425); the matching
`popDrawDetails()` at line 487 is commented out in the source, and the early
return taken when the molecule has no conformer (lines 431-434) also returns
with the context still pushed.  `setupMoleculeDraw` draws one rectangle per
`atomRegions` entry holding more than one atom index and touches no stack
depth. -/
def drawMolecule (env : DrawMoleculeEnv) (s : ContextStacks) :
    List Primitive × ContextStacks :=
  let s1 := pushDrawDetails s
  let setupTrace :=
    (env.atomRegions.filter (fun n => decide (1 < n))).map
      (fun _ => Primitive.regionRect)
  if !env.hasConformer then
    -- "clearly, the molecule is in a sorry state." -- early return, no pop
    (setupTrace, s1)
  else
    (setupTrace ++
      (if env.preShapesNonempty then [Primitive.preShapePrim] else []) ++
      env.highlightTrace ++ env.bondsTrace ++ env.finishTrace,
     s1)

/-- Environment of a conformer-carrying drawMolecule call, used for the C2
counterexample. -/
def envWithConformer : DrawMoleculeEnv :=
  { hasConformer := true, atomRegions := [], preShapesNonempty := false
    highlightTrace := [], bondsTrace := [Primitive.bondPrim]
    finishTrace := [Primitive.atomLabelPrim] }

/-- Context-stack state of a freshly constructed `MolDraw2D`
(`activeMolIdx_ = -1`, all stacks empty). -/
def freshStacks : ContextStacks :=
  { at_cds := 0, atomic_nums := 0, atom_syms := 0, annotations := 0
    pre_shapes := 0, post_shapes := 0, radicals := 0, activeMolIdx := -1 }

/-- C2 counterexample: starting from a fresh drawer (all stacks empty,
`activeMolIdx_ = -1`), one `drawMolecule` call on a molecule with a conformer
leaves the `at_cds_` stack at depth 1 and `activeMolIdx_` at 0 — not the
values from before the call, because the pop at the end of `drawMolecule` is
commented out in the source. -/
theorem drawMolecule_leaves_context_pushed :
    (drawMolecule envWithConformer freshStacks).2.at_cds = 1 ∧
    freshStacks.at_cds = 0 ∧
    (drawMolecule envWithConformer freshStacks).2.activeMolIdx = 0 ∧
    freshStacks.activeMolIdx = -1 ∧
    (1 : ℕ) ≠ 0 := by
  refine ⟨rfl, rfl, rfl, rfl, by decide⟩

/-- C2 (amended): `drawMolecule` pushes a render context on entry but never
pops it: after any call returns — on the normal path as well as on the early
no-conformer return — the final stack state equals `pushDrawDetails` of the
initial state, so every per-molecule stack is one entry deeper and
`activeMolIdx_` is one greater than before the call. -/
theorem drawMolecule_context_effect (env : DrawMoleculeEnv) (s : ContextStacks) :
    (drawMolecule env s).2 = pushDrawDetails s ∧
    (drawMolecule env s).2.at_cds = s.at_cds + 1 ∧
    (drawMolecule env s).2.annotations = s.annotations + 1 ∧
    (drawMolecule env s).2.activeMolIdx = s.activeMolIdx + 1 := by
  unfold drawMolecule
  cases env.hasConformer <;>
    exact ⟨rfl, rfl, rfl, rfl⟩

/-- C9: if (after the preparation step) the molecule has no conformer, the
`drawMolecule` call returns normally and every primitive it emitted is an
`atomRegions` rectangle — in particular no atom, bond, highlight, shape or
annotation primitive is drawn. -/
theorem drawMolecule_no_conformer_noop (env : DrawMoleculeEnv)
    (s : ContextStacks) (h : env.hasConformer = false) :
    ∀ pr ∈ (drawMolecule env s).1, pr = Primitive.regionRect := by
  intro pr hpr
  unfold drawMolecule at hpr
  rw [h] at hpr
  simp only [Bool.not_false, if_true] at hpr
  rcases List.mem_map.mp hpr with ⟨n, hn, hmap⟩
  exact hmap.symm

/-- Environment of a conformer-less drawMolecule call with a nonempty
`atomRegions` option, used to witness the no-conformer no-op theorem. -/
def envNoConformer : DrawMoleculeEnv :=
  { hasConformer := false, atomRegions := [3], preShapesNonempty := true
    highlightTrace := [Primitive.highlightPrim]
    bondsTrace := [Primitive.bondPrim]
    finishTrace := [Primitive.atomLabelPrim] }

theorem drawMolecule_no_conformer_noop_witness :
    envNoConformer.hasConformer = false ∧
    ∀ pr ∈ (drawMolecule envNoConformer freshStacks).1,
      pr = Primitive.regionRect :=
  ⟨rfl, drawMolecule_no_conformer_noop envNoConformer freshStacks rfl⟩

/-- Molecular graph restricted to what `drawBonds` consumes: the number of
atoms (indices `0 .. numAtoms-1`) and the bonds as (begin, end) atom-index
pairs. -/
structure MolGraph where
  numAtoms : ℕ
  bonds : List (ℕ × ℕ)

/-- Bonds incident to atom `a`, as enumerated by `mol.getAtomBonds(this_at)`. -/
def getAtomBonds (m : MolGraph) (a : ℕ) : List (ℕ × ℕ) :=
  m.bonds.filter (fun b => b.1 == a || b.2 == a)

/-- `Bond::getOtherAtomIdx(thisIdx)`: the index of the atom at the other end
of the bond. -/
def getOtherAtomIdx (b : ℕ × ℕ) (a : ℕ) : ℕ :=
  if b.1 = a then b.2 else b.1

/-- `MolDraw2D::drawBonds` (MolDraw2D.cpp:1767-1787): visit every atom in
index order and, for each incident bond, call `drawBond` only when the
neighbour index lies inside the atom-coordinate array (`cdsSize` is
`at_cds_[activeMolIdx_].size()`) and exceeds the current atom index.  The
result lists the bonds handed to `drawBond`, in drawing order. -/
def drawBonds (m : MolGraph) (cdsSize : ℕ) : List (ℕ × ℕ) :=
  (List.range m.numAtoms).flatMap (fun this_idx =>
    (getAtomBonds m this_idx).filter (fun bond =>
      let nbr_idx := getOtherAtomIdx bond this_idx
      decide (nbr_idx < cdsSize) && decide (this_idx < nbr_idx)))

theorem count_filter_eq {α : Type} [BEq α] [LawfulBEq α] (p : α → Bool) (b : α)
    (l : List α) :
    (l.filter p).count b = if p b then l.count b else 0 := by
  induction l with
  | nil => simp
  | cons x xs ih =>
      by_cases hp : p x = true
      · rw [List.filter_cons_of_pos hp, List.count_cons, List.count_cons, ih]
        by_cases hxb : (x == b) = true
        · have hbx : x = b := eq_of_beq hxb
          subst hbx
          simp [hp]
        · simp [hxb]
      · rw [List.filter_cons_of_neg hp, ih, List.count_cons]
        by_cases hxb : (x == b) = true
        · have hbx : x = b := eq_of_beq hxb
          subst hbx
          simp [hp]
        · simp [hxb]

theorem sum_map_range_single (g : ℕ → ℕ) (i n : ℕ) (hi : i < n)
    (hg : ∀ a, a ≠ i → g a = 0) :
    ((List.range n).map g).sum = g i := by
  induction n with
  | zero => omega
  | succ n ih =>
      rw [List.range_succ, List.map_append, List.sum_append]
      by_cases hin : i = n
      · subst hin
        have hz : ((List.range i).map g).sum = 0 := by
          apply List.sum_eq_zero
          intro x hx
          rcases List.mem_map.mp hx with ⟨a, ha, rfl⟩
          exact hg a (by have := List.mem_range.mp ha; omega)
        simp [hz]
      · have hi2 : i < n := by omega
        rw [ih hi2]
        have : g n = 0 := hg n (by omega)
        simp [this]

/-- C10: when the atom-coordinate array covers all atom indices, `drawBonds`
hands each topological bond to `drawBond` exactly once: the bond is visited
from both of its endpoints, but drawn only from the endpoint with the smaller
index, so no bond is drawn twice and none is skipped. -/
theorem drawBonds_each_bond_once (m : MolGraph)
    (hvalid : ∀ b ∈ m.bonds, b.1 < m.numAtoms ∧ b.2 < m.numAtoms ∧ b.1 ≠ b.2) :
    ∀ b ∈ m.bonds, (drawBonds m m.numAtoms).count b = m.bonds.count b := by
  intro b hb
  rcases hvalid b hb with ⟨h1, h2, hne⟩
  unfold drawBonds
  rw [List.flatMap_def, List.count_flatten, List.map_map]
  have hin : (if b.1 < b.2 then b.1 else b.2) < m.numAtoms := by
    by_cases hlt : b.1 < b.2 <;> simp [hlt, h1, h2]
  refine Eq.trans
    (sum_map_range_single _ (if b.1 < b.2 then b.1 else b.2) m.numAtoms hin
      ?_) ?_
  · -- every atom other than the lower-indexed endpoint contributes nothing
    intro a ha
    simp only [Function.comp_apply]
    rw [count_filter_eq, getAtomBonds, count_filter_eq]
    by_cases hb1 : b.1 = a
    · have hia : ¬ b.1 < b.2 := by
        by_contra hc
        exact ha (by rw [if_pos hc, hb1])
      have hoth : getOtherAtomIdx b a = b.2 := by simp [getOtherAtomIdx, hb1]
      have hlt : ¬ a < b.2 := by omega
      simp [hoth, hlt]
    · by_cases hb2 : b.2 = a
      · have hia : b.1 < b.2 := by
          rcases Nat.lt_or_ge b.1 b.2 with hc | hc
          · exact hc
          · exact absurd (by rw [if_neg (by omega), hb2]) ha
        have hoth : getOtherAtomIdx b a = b.1 := by
          simp [getOtherAtomIdx, hb1]
        have hlt : ¬ a < b.1 := by omega
        simp [hoth, hlt]
      · have hmem : (b.1 == a || b.2 == a) = false := by
          simp [hb1, hb2]
        simp [hmem]
  · -- the lower-indexed endpoint contributes the full bond count
    simp only [Function.comp_apply]
    rw [count_filter_eq, getAtomBonds, count_filter_eq]
    by_cases hlt : b.1 < b.2
    · rw [if_pos hlt]
      have hoth : getOtherAtomIdx b b.1 = b.2 := by simp [getOtherAtomIdx]
      simp [hoth, hlt, h2]
    · have hlt2 : b.2 < b.1 := by omega
      rw [if_neg hlt]
      have hoth : getOtherAtomIdx b b.2 = b.1 := by
        simp [getOtherAtomIdx, fun h => hne h]
      simp [hoth, hlt2, h1]

/-- Triangle graph used to witness the once-per-bond property of
`drawBonds`. -/
def triangleGraph : MolGraph :=
  { numAtoms := 3, bonds := [(0, 1), (1, 2), (2, 0)] }

theorem drawBonds_each_bond_once_witness :
    (∀ b ∈ triangleGraph.bonds,
        b.1 < triangleGraph.numAtoms ∧ b.2 < triangleGraph.numAtoms ∧
        b.1 ≠ b.2) ∧
    ∀ b ∈ triangleGraph.bonds,
      (drawBonds triangleGraph triangleGraph.numAtoms).count b =
        triangleGraph.bonds.count b :=
  ⟨by decide, drawBonds_each_bond_once triangleGraph (by decide)⟩

/-- Largest `double`, `std::numeric_limits<double>::max()`, the initial value
of the bounding-box fold in `MolDraw2D::calculateScale`. -/
def dblMax : ℚ := (2 ^ 53 - 1) * 2 ^ 971

/-- Bounding box accumulator of `MolDraw2D::calculateScale`
(`x_min_`, `y_min_`, `x_max`, `y_max`). -/
structure BBox where
  x_min : ℚ
  y_min : ℚ
  x_max : ℚ
  y_max : ℚ
deriving DecidableEq

/-- Single min/max update of the bounding-box fold in
`MolDraw2D::calculateScale`. -/
def bboxUpdate (b : BBox) (pt : Point2D) : BBox :=
  { x_min := min pt.x b.x_min
    y_min := min pt.y b.y_min
    x_max := max pt.x b.x_max
    y_max := max pt.y b.y_max }

/-- Bounding-box pass of `MolDraw2D::calculateScale` (MolDraw2D.cpp:1199-1226):
fold over the atom coordinates, then over all points of the pre- and
post-registered shapes. -/
def calcBoundingBox (at_cds : List Point2D)
    (pre_shapes post_shapes : List (List Point2D)) : BBox :=
  let b0 : BBox := ⟨dblMax, dblMax, -dblMax, -dblMax⟩
  let b1 := at_cds.foldl bboxUpdate b0
  let b2 := pre_shapes.foldl (fun b shp => shp.foldl bboxUpdate b) b1
  post_shapes.foldl (fun b shp => shp.foldl bboxUpdate b) b2

/-- Bounding box together with the spans along each axis
(`x_range_`, `y_range_`). -/
structure SpanState where
  x_min : ℚ
  y_min : ℚ
  x_max : ℚ
  y_max : ℚ
  x_range : ℚ
  y_range : ℚ
deriving DecidableEq

/-- Span pass of `MolDraw2D::calculateScale` (MolDraw2D.cpp:1228-1240):
compute the x and y spans and normalise degenerate ones. -/
def calcSpans (bb : BBox) : SpanState :=
  let x_range := bb.x_max - bb.x_min
  let y_range := bb.y_max - bb.y_min
  let s : SpanState :=
    if x_range < 1 / 10000 then
      ⟨bb.x_min - 1, bb.y_min, bb.x_max + 1, bb.y_max, 2, y_range⟩
    else
      ⟨bb.x_min, bb.y_min, bb.x_max, bb.y_max, x_range, y_range⟩
  if s.y_range < 1 / 10000 then
    { s with y_min := s.y_min - 1, y_max := s.y_max + 1, y_range := 2 }
  else s

/-- C6 counterexample: for a molecule with a single atom at the origin and no
registered shapes, the bounding-box span is degenerate along both axes, and
`calculateScale` normalises it to a span of 2 with the min reduced by 1 —
not to a unit span with the min reduced by 0.5 as claimed. -/
theorem calcSpans_degenerate_counterexample :
    calcSpans (calcBoundingBox [⟨0, 0⟩] [] []) =
      ⟨-1, -1, 1, 1, 2, 2⟩ ∧
    (2 : ℚ) ≠ 1 ∧ (-1 : ℚ) ≠ -(1 / 2) := by
  refine ⟨?_, by norm_num, by norm_num⟩
  have hbb : calcBoundingBox [⟨0, 0⟩] [] [] = ⟨0, 0, 0, 0⟩ := by
    show bboxUpdate ⟨dblMax, dblMax, -dblMax, -dblMax⟩ ⟨0, 0⟩ = _
    rw [bboxUpdate]
    have h1 : min (0 : ℚ) dblMax = 0 := by rw [dblMax]; norm_num
    have h2 : max (0 : ℚ) (-dblMax) = 0 := by rw [dblMax]; norm_num
    simp only [h1, h2]
  rw [hbb, calcSpans]
  norm_num

/-- C6 (amended): in single-molecule scale calculation, whenever the
bounding-box span along an axis is below `1e-4`, that span is normalised to a
span of two units centred on the existing value: the resulting range along
that axis equals 2, the min is reduced by 1 and the max increased by 1 from
the degenerate values (so the centre of the axis interval is unchanged). -/
theorem calcSpans_degenerate (bb : BBox) :
    (bb.x_max - bb.x_min < 1 / 10000 →
      (calcSpans bb).x_range = 2 ∧
      (calcSpans bb).x_min = bb.x_min - 1 ∧
      (calcSpans bb).x_max = bb.x_max + 1 ∧
      (calcSpans bb).x_min + (calcSpans bb).x_max = bb.x_min + bb.x_max) ∧
    (bb.y_max - bb.y_min < 1 / 10000 →
      (calcSpans bb).y_range = 2 ∧
      (calcSpans bb).y_min = bb.y_min - 1 ∧
      (calcSpans bb).y_max = bb.y_max + 1 ∧
      (calcSpans bb).y_min + (calcSpans bb).y_max = bb.y_min + bb.y_max) := by
  constructor
  · intro hx
    simp only [calcSpans]
    split_ifs with h1 h2 <;>
      first
        | exact absurd hx h1
        | exact ⟨rfl, rfl, rfl, by ring⟩
  · intro hy
    simp only [calcSpans]
    split_ifs with h1 h2 <;>
      first
        | exact absurd hy h2
        | exact ⟨rfl, rfl, rfl, by ring⟩

theorem calcSpans_degenerate_witness :
    ((0 : ℚ) - 0 < 1 / 10000 →
      (calcSpans ⟨0, 5, 0, 5⟩).x_range = 2 ∧
      (calcSpans ⟨0, 5, 0, 5⟩).x_min = (0 : ℚ) - 1 ∧
      (calcSpans ⟨0, 5, 0, 5⟩).x_max = (0 : ℚ) + 1 ∧
      (calcSpans ⟨0, 5, 0, 5⟩).x_min + (calcSpans ⟨0, 5, 0, 5⟩).x_max =
        (0 : ℚ) + 0) ∧
    ((5 : ℚ) - 5 < 1 / 10000 →
      (calcSpans ⟨0, 5, 0, 5⟩).y_range = 2 ∧
      (calcSpans ⟨0, 5, 0, 5⟩).y_min = (5 : ℚ) - 1 ∧
      (calcSpans ⟨0, 5, 0, 5⟩).y_max = (5 : ℚ) + 1 ∧
      (calcSpans ⟨0, 5, 0, 5⟩).y_min + (calcSpans ⟨0, 5, 0, 5⟩).y_max =
        (5 : ℚ) + 5) :=
  calcSpans_degenerate ⟨0, 5, 0, 5⟩

/-- Drawing options consumed by the embedded parts of the engine
(`MolDrawOptions::padding`, `fixedScale`, `fixedBondLength`,
`multipleBondOffset`). -/
structure MolDrawOptions where
  padding : ℚ
  fixedScale : ℚ
  fixedBondLength : ℚ
  multipleBondOffset : ℚ

/-- Padding step of `MolDraw2D::calculateScale` (MolDraw2D.cpp:1264-1268):
put a buffer round the drawing. -/
def applyPadding (padding : ℚ) (st : DrawState) : DrawState :=
  { st with
    x_min := st.x_min - padding * st.x_range
    x_range := st.x_range * (1 + 2 * padding)
    y_min := st.y_min - padding * st.y_range
    y_range := st.y_range * (1 + 2 * padding) }

/-- `MolDraw2D::centrePicture` (MolDraw2D.cpp:1379-1399): compute the
translation that centres the picture; `width` and `height` are the C++ `int`
arguments, and `width / 2`, `height / 2` are integer divisions as in the
source. -/
def centrePicture (width height : ℤ) (st : DrawState) : DrawState :=
  let y_mid := st.y_min + (1 / 2 : ℚ) * st.y_range
  let x_mid := st.x_min + (1 / 2 : ℚ) * st.x_range
  let midx := st.scale * (x_mid - st.x_min)
  let midy := st.scale * (y_mid - st.y_min)
  -- y is now the distance from the top of the image, we need to invert that:
  let midx := midx + st.x_offset
  let midy := midy - st.y_offset
  let midy := (height : ℚ) - midy
  -- that used the offset, we need to remove that:
  let midx := midx - st.x_offset
  let midy := midy + st.y_offset
  { st with
    x_trans := (((width / 2 : ℤ) : ℚ) - midx) / st.scale
    y_trans := (midy - ((height / 2 : ℤ) : ℚ)) / st.scale }

/-- Tail of `MolDraw2D::calculateScale` (MolDraw2D.cpp:1264-1290), entered
after the iterative font-aware fit has converged: apply the padding, compute
the fit-to-box scale, override it by `fixedBondLength` and then by
`fixedScale` when set, keep the smaller of fit and override, and centre the
picture. -/
def calculateScaleFix (width height : ℤ) (opts : MolDrawOptions)
    (st : DrawState) : DrawState :=
  let st1 := applyPadding opts.padding st
  if st1.x_range > 1 / 10000 ∨ st1.y_range > 1 / 10000 then
    let scale1 := min ((width : ℚ) / st1.x_range) ((height : ℚ) / st1.y_range)
    -- after all that, use the fixed scale unless it is too big, in which case
    -- scale the drawing down to fit.
    -- fixedScale takes precedence if both it and fixedBondLength are given.
    let fix_scale := scale1
    let fix_scale :=
      if opts.fixedBondLength > 0 then opts.fixedBondLength else fix_scale
    let fix_scale :=
      if opts.fixedScale > 0 then (width : ℚ) * opts.fixedScale else fix_scale
    let scale2 := if scale1 > fix_scale then fix_scale else scale1
    centrePicture width height { st1 with scale := scale2 }
  else
    { st1 with scale := 1, x_trans := 0, y_trans := 0 }

theorem if_gt_eq_min (a f : ℚ) : (if a > f then f else a) = min a f := by
  rcases le_or_lt a f with h | h
  · rw [if_neg (not_lt.mpr h), min_eq_left h]
  · rw [if_pos h, min_eq_right h.le]

theorem intdiv_cast (w : ℤ) (hwe : 2 ∣ w) : ((w / 2 : ℤ) : ℚ) = (w : ℚ) / 2 := by
  rcases hwe with ⟨k, rfl⟩
  rw [Int.mul_ediv_cancel_left k (by norm_num)]
  push_cast
  ring

/-- Helper: with zero pixel offsets and the drawing height equal to panel
height minus legend height, the translation computed by `centrePicture` makes
`getDrawCoords` map the bounding-box centre to the centre of the
width-by-height drawing area. -/
theorem centrePicture_maps_centre (width height : ℤ) (s : DrawState)
    (hs : s.scale ≠ 0) (hxo : s.x_offset = 0) (hyo : s.y_offset = 0)
    (hwe : 2 ∣ width) (hhe : 2 ∣ height)
    (hht : (height : ℚ) = s.panelHeight - s.legendHeight) :
    getDrawCoords (centrePicture width height s)
      ⟨s.x_min + s.x_range / 2, s.y_min + s.y_range / 2⟩ =
      ⟨(width : ℚ) / 2, (height : ℚ) / 2⟩ := by
  simp only [getDrawCoords, centrePicture, hxo, hyo]
  rw [intdiv_cast width hwe, intdiv_cast height hhe]
  rw [Point2D.mk.injEq]
  constructor
  · field_simp
    ring
  · rw [← hht]
    field_simp
    ring

/-- C7: after the iterative font-aware fit has converged and the padding
fraction has been applied symmetrically to both axes, the final scale equals
the smaller of the fit-to-box scale and any explicit fixed-scale or
fixed-bond-length override — an explicit fixed scale taking precedence over a
fixed bond length when both are set — and the centering translation then maps
the bounding-box centre to the centre of the drawing panel (width by height,
the panel height minus the legend height, with even pixel dimensions and zero
pixel offsets). -/
theorem calculateScale_fixed_scale_and_centre
    (width height : ℤ) (opts : MolDrawOptions) (st : DrawState)
    (hw : 0 < width) (hh : 0 < height)
    (hxr : (applyPadding opts.padding st).x_range > 1 / 10000)
    (hyr : (applyPadding opts.padding st).y_range > 1 / 10000)
    (hxo : st.x_offset = 0) (hyo : st.y_offset = 0)
    (hwe : 2 ∣ width) (hhe : 2 ∣ height)
    (hht : (height : ℚ) = st.panelHeight - st.legendHeight) :
    (calculateScaleFix width height opts st).scale =
      (if opts.fixedScale > 0 then
         min (min ((width : ℚ) / (applyPadding opts.padding st).x_range)
                ((height : ℚ) / (applyPadding opts.padding st).y_range))
           ((width : ℚ) * opts.fixedScale)
       else if opts.fixedBondLength > 0 then
         min (min ((width : ℚ) / (applyPadding opts.padding st).x_range)
                ((height : ℚ) / (applyPadding opts.padding st).y_range))
           opts.fixedBondLength
       else
         min ((width : ℚ) / (applyPadding opts.padding st).x_range)
           ((height : ℚ) / (applyPadding opts.padding st).y_range)) ∧
    getDrawCoords (calculateScaleFix width height opts st)
        ⟨(applyPadding opts.padding st).x_min +
            (applyPadding opts.padding st).x_range / 2,
          (applyPadding opts.padding st).y_min +
            (applyPadding opts.padding st).y_range / 2⟩ =
      ⟨(width : ℚ) / 2, (height : ℚ) / 2⟩ := by
  have hkey : calculateScaleFix width height opts st =
      centrePicture width height
        { applyPadding opts.padding st with
          scale :=
            if min ((width : ℚ) / (applyPadding opts.padding st).x_range)
                 ((height : ℚ) / (applyPadding opts.padding st).y_range) >
               (if opts.fixedScale > 0 then (width : ℚ) * opts.fixedScale
                else if opts.fixedBondLength > 0 then opts.fixedBondLength
                else min ((width : ℚ) / (applyPadding opts.padding st).x_range)
                       ((height : ℚ) / (applyPadding opts.padding st).y_range))
            then
              (if opts.fixedScale > 0 then (width : ℚ) * opts.fixedScale
               else if opts.fixedBondLength > 0 then opts.fixedBondLength
               else min ((width : ℚ) / (applyPadding opts.padding st).x_range)
                      ((height : ℚ) / (applyPadding opts.padding st).y_range))
            else min ((width : ℚ) / (applyPadding opts.padding st).x_range)
                   ((height : ℚ) / (applyPadding opts.padding st).y_range) } := by
    simp only [calculateScaleFix]
    rw [if_pos (Or.inl hxr)]
  have hxr0 : (0 : ℚ) < (applyPadding opts.padding st).x_range := by
    have : (0 : ℚ) < 1 / 10000 := by norm_num
    linarith
  have hyr0 : (0 : ℚ) < (applyPadding opts.padding st).y_range := by
    have : (0 : ℚ) < 1 / 10000 := by norm_num
    linarith
  have hw0 : (0 : ℚ) < (width : ℚ) := by exact_mod_cast hw
  have hh0 : (0 : ℚ) < (height : ℚ) := by exact_mod_cast hh
  have hfit0 : (0 : ℚ) <
      min ((width : ℚ) / (applyPadding opts.padding st).x_range)
        ((height : ℚ) / (applyPadding opts.padding st).y_range) :=
    lt_min (div_pos hw0 hxr0) (div_pos hh0 hyr0)
  have hfx0 : (0 : ℚ) <
      (if opts.fixedScale > 0 then (width : ℚ) * opts.fixedScale
       else if opts.fixedBondLength > 0 then opts.fixedBondLength
       else min ((width : ℚ) / (applyPadding opts.padding st).x_range)
              ((height : ℚ) / (applyPadding opts.padding st).y_range)) := by
    split_ifs with h1 h2
    · exact mul_pos hw0 h1
    · exact h2
    · exact hfit0
  constructor
  · rw [hkey]
    show (if min ((width : ℚ) / (applyPadding opts.padding st).x_range)
              ((height : ℚ) / (applyPadding opts.padding st).y_range) >
            (if opts.fixedScale > 0 then (width : ℚ) * opts.fixedScale
             else if opts.fixedBondLength > 0 then opts.fixedBondLength
             else min ((width : ℚ) / (applyPadding opts.padding st).x_range)
                    ((height : ℚ) / (applyPadding opts.padding st).y_range))
          then
            (if opts.fixedScale > 0 then (width : ℚ) * opts.fixedScale
             else if opts.fixedBondLength > 0 then opts.fixedBondLength
             else min ((width : ℚ) / (applyPadding opts.padding st).x_range)
                    ((height : ℚ) / (applyPadding opts.padding st).y_range))
          else min ((width : ℚ) / (applyPadding opts.padding st).x_range)
                 ((height : ℚ) / (applyPadding opts.padding st).y_range)) = _
    rw [if_gt_eq_min]
    by_cases hfs : opts.fixedScale > 0
    · rw [if_pos hfs, if_pos hfs]
    · rw [if_neg hfs, if_neg hfs]
      by_cases hfb : opts.fixedBondLength > 0
      · rw [if_pos hfb, if_pos hfb]
      · rw [if_neg hfb, if_neg hfb, min_self]
  · rw [hkey]
    apply centrePicture_maps_centre
    · show (if min ((width : ℚ) / (applyPadding opts.padding st).x_range)
                ((height : ℚ) / (applyPadding opts.padding st).y_range) >
              (if opts.fixedScale > 0 then (width : ℚ) * opts.fixedScale
               else if opts.fixedBondLength > 0 then opts.fixedBondLength
               else min ((width : ℚ) / (applyPadding opts.padding st).x_range)
                      ((height : ℚ) / (applyPadding opts.padding st).y_range))
            then
              (if opts.fixedScale > 0 then (width : ℚ) * opts.fixedScale
               else if opts.fixedBondLength > 0 then opts.fixedBondLength
               else min ((width : ℚ) / (applyPadding opts.padding st).x_range)
                      ((height : ℚ) / (applyPadding opts.padding st).y_range))
            else min ((width : ℚ) / (applyPadding opts.padding st).x_range)
                   ((height : ℚ) / (applyPadding opts.padding st).y_range)) ≠ 0
      rw [if_gt_eq_min]
      exact ne_of_gt (lt_min hfit0 hfx0)
    · exact hxo
    · exact hyo
    · exact hwe
    · exact hhe
    · exact hht

/-- Transform state used to witness the final-scale/centring theorem. -/
def fitState : DrawState :=
  { scale := 1, x_min := 0, y_min := 0, x_range := 10, y_range := 10
    x_trans := 0, y_trans := 0, x_offset := 0, y_offset := 0
    panelHeight := 300, legendHeight := 20 }

/-- Option set used to witness the final-scale/centring theorem. -/
def fitOpts : MolDrawOptions :=
  { padding := 0, fixedScale := 0, fixedBondLength := 0
    multipleBondOffset := 1 / 10 }

theorem calculateScale_fixed_scale_and_centre_witness :
    ((0 : ℤ) < 300 ∧ (0 : ℤ) < 280 ∧
     (applyPadding fitOpts.padding fitState).x_range > 1 / 10000 ∧
     (applyPadding fitOpts.padding fitState).y_range > 1 / 10000 ∧
     fitState.x_offset = 0 ∧ fitState.y_offset = 0 ∧
     (2 : ℤ) ∣ 300 ∧ (2 : ℤ) ∣ 280 ∧
     ((280 : ℤ) : ℚ) = fitState.panelHeight - fitState.legendHeight) ∧
    ((calculateScaleFix 300 280 fitOpts fitState).scale =
      (if fitOpts.fixedScale > 0 then
         min (min ((300 : ℚ) / (applyPadding fitOpts.padding fitState).x_range)
                ((280 : ℚ) / (applyPadding fitOpts.padding fitState).y_range))
           ((300 : ℚ) * fitOpts.fixedScale)
       else if fitOpts.fixedBondLength > 0 then
         min (min ((300 : ℚ) / (applyPadding fitOpts.padding fitState).x_range)
                ((280 : ℚ) / (applyPadding fitOpts.padding fitState).y_range))
           fitOpts.fixedBondLength
       else
         min ((300 : ℚ) / (applyPadding fitOpts.padding fitState).x_range)
           ((280 : ℚ) / (applyPadding fitOpts.padding fitState).y_range)) ∧
     getDrawCoords (calculateScaleFix 300 280 fitOpts fitState)
         ⟨(applyPadding fitOpts.padding fitState).x_min +
             (applyPadding fitOpts.padding fitState).x_range / 2,
           (applyPadding fitOpts.padding fitState).y_min +
             (applyPadding fitOpts.padding fitState).y_range / 2⟩ =
       ⟨(300 : ℚ) / 2, (280 : ℚ) / 2⟩) :=
  ⟨⟨by norm_num, by norm_num,
    by norm_num [applyPadding, fitOpts, fitState],
    by norm_num [applyPadding, fitOpts, fitState],
    by norm_num [fitState], by norm_num [fitState],
    by norm_num, by norm_num, by norm_num [fitState]⟩,
   calculateScale_fixed_scale_and_centre 300 280 fitOpts fitState
     (by norm_num) (by norm_num)
     (by norm_num [applyPadding, fitOpts, fitState])
     (by norm_num [applyPadding, fitOpts, fitState])
     (by norm_num [fitState]) (by norm_num [fitState])
     (by norm_num) (by norm_num) (by norm_num [fitState])⟩

/-- `calcPerpendicular` (MolDraw2D.cpp:54-62): normalised perpendicular to the
vector between two coords.  `sqrtf` stands for the C library square root,
passed explicitly to keep the definition executable over the rationals. -/
def calcPerpendicular (sqrtf : ℚ → ℚ) (cds1 cds2 : Point2D) : Point2D :=
  let bv : ℚ × ℚ := (cds1.x - cds2.x, cds1.y - cds2.y)
  let perp : ℚ × ℚ := (-bv.2, bv.1)
  let perp_len := sqrtf (perp.1 * perp.1 + perp.2 * perp.2)
  ⟨perp.1 / perp_len, perp.2 / perp_len⟩

/-- `calcInnerPerpendicular` (MolDraw2D.cpp:67-82): normalised perpendicular
to the vector between two coords, such that it is inside the angle made
between (1 and 2) and (2 and 3).  If the dot product of the centre direction
and the perpendicular is negative the perpendicular is reversed. -/
def calcInnerPerpendicular (sqrtf : ℚ → ℚ) (cds1 cds2 cds3 : Point2D) :
    Point2D :=
  let perp := calcPerpendicular sqrtf cds1 cds2
  let v1 : ℚ × ℚ := (cds1.x - cds2.x, cds1.y - cds2.y)
  let v2 : ℚ × ℚ := (cds2.x - cds3.x, cds2.y - cds3.y)
  let obv : ℚ × ℚ := (v1.1 - v2.1, v1.2 - v2.2)
  if obv.1 * perp.x + obv.2 * perp.y < 0 then ⟨-perp.x, -perp.y⟩ else perp

/-- Inputs of `calcDoubleBondLines` that come from the molecular graph rather
than from the two endpoint coordinates: the endpoint degrees, the
`isLinearAtom` results, the either/any stereo flags, the number of rings the
bond belongs to, and the coordinates of the third atom located by the
`bondInsideRing` / `bondInsideDoubleBond` neighbour searches
(`ringThirdAtom = none` when no adjacent ring bond can be found). -/
structure DoubleBondEnv where
  at1Degree : ℕ
  at2Degree : ℕ
  at1Linear : Bool
  at2Linear : Bool
  eitherDouble : Bool
  stereoAny : Bool
  numBondRings : ℕ
  ringThirdAtom : Option Point2D
  nbrThirdAtom : Point2D

/-- `bondInsideRing` (MolDraw2D.cpp:87-158): perpendicular pointing into the
ring.  The ring walk that locates another ring bond sharing the begin atom is
abstracted to `ringThirdAtom`, the coordinates of the atom at that bond's
other end; the failsafe plain perpendicular is returned when the walk finds
nothing. -/
def bondInsideRing (sqrtf : ℚ → ℚ) (env : DoubleBondEnv)
    (cds1 cds2 : Point2D) : Point2D :=
  match env.ringThirdAtom with
  | some at3 => calcInnerPerpendicular sqrtf cds1 cds2 at3
  | none => calcPerpendicular sqrtf cds1 cds2

/-- `bondInsideDoubleBond` (MolDraw2D.cpp:183-209): perpendicular pointing
into the inside of a chain double bond; the bond atom is the begin atom when
its degree exceeds 1 and otherwise the end atom, and `nbrThirdAtom` carries
the coordinates of the neighbour found at the bond atom. -/
def bondInsideDoubleBond (sqrtf : ℚ → ℚ) (env : DoubleBondEnv)
    (at1_cds at2_cds : Point2D) : Point2D :=
  if 1 < env.at1Degree then
    calcInnerPerpendicular sqrtf at2_cds at1_cds env.nbrThirdAtom
  else
    calcInnerPerpendicular sqrtf at1_cds at2_cds env.nbrThirdAtom

/-- `calcDoubleBondLines` (MolDraw2D.cpp:212-250): the two lines drawn for a
double (or aromatic) bond, returned as (l1s, l1f, l2s, l2f). -/
def calcDoubleBondLines (sqrtf : ℚ → ℚ) (offset : ℚ) (env : DoubleBondEnv)
    (at1_cds at2_cds : Point2D) : Point2D × Point2D × Point2D × Point2D :=
  -- the percent shorter that the extra bonds in a double bond are
  let multipleBondTruncation : ℚ := 15 / 100
  if env.at1Degree = 1 ∨ env.at2Degree = 1 ∨ env.at1Linear ∨ env.at2Linear then
    let perp := calcPerpendicular sqrtf at1_cds at2_cds * offset
    (at1_cds + perp, at2_cds + perp, at1_cds - perp, at2_cds - perp)
  else if env.eitherDouble ∨ env.stereoAny then
    -- crossed bond
    let perp := calcPerpendicular sqrtf at1_cds at2_cds * offset
    (at1_cds + perp, at2_cds - perp, at1_cds - perp, at2_cds + perp)
  else
    let l1s := at1_cds
    let l1f := at2_cds
    let offset := offset * 2
    let perp :=
      if env.numBondRings ≠ 0 then bondInsideRing sqrtf env at1_cds at2_cds
      else bondInsideDoubleBond sqrtf env at1_cds at2_cds
    let bv := at1_cds - at2_cds
    (l1s, l1f,
     at1_cds - bv * multipleBondTruncation + perp * offset,
     at2_cds + bv * multipleBondTruncation + perp * offset)

/-- Unit vector perpendicular to the segment from `c1` to `c2`. -/
def isUnitPerp (u c1 c2 : Point2D) : Prop :=
  u.x ^ 2 + u.y ^ 2 = 1 ∧ u.x * (c1.x - c2.x) + u.y * (c1.y - c2.y) = 0

theorem isUnitPerp_calcPerpendicular (sqrtf : ℚ → ℚ) (c1 c2 : Point2D)
    (hL2 : sqrtf ((c1.y - c2.y) ^ 2 + (c1.x - c2.x) ^ 2) *
        sqrtf ((c1.y - c2.y) ^ 2 + (c1.x - c2.x) ^ 2) =
        (c1.y - c2.y) ^ 2 + (c1.x - c2.x) ^ 2)
    (hLne : sqrtf ((c1.y - c2.y) ^ 2 + (c1.x - c2.x) ^ 2) ≠ 0) :
    isUnitPerp (calcPerpendicular sqrtf c1 c2) c1 c2 := by
  have harg : -(c1.y - c2.y) * -(c1.y - c2.y) + (c1.x - c2.x) * (c1.x - c2.x) =
      (c1.y - c2.y) ^ 2 + (c1.x - c2.x) ^ 2 := by ring
  simp only [calcPerpendicular, isUnitPerp, harg]
  constructor
  · field_simp
    linear_combination -hL2
  · field_simp
    ring

theorem isUnitPerp_neg (u c1 c2 : Point2D) (h : isUnitPerp u c1 c2) :
    isUnitPerp ⟨-u.x, -u.y⟩ c1 c2 := by
  obtain ⟨h1, h2⟩ := h
  constructor
  · show (-u.x) ^ 2 + (-u.y) ^ 2 = 1
    linear_combination h1
  · show -u.x * (c1.x - c2.x) + -u.y * (c1.y - c2.y) = 0
    linear_combination -h2

theorem isUnitPerp_swap (u c1 c2 : Point2D) (h : isUnitPerp u c2 c1) :
    isUnitPerp u c1 c2 :=
  ⟨h.1, by linear_combination -h.2⟩

theorem calcInnerPerpendicular_cases (sqrtf : ℚ → ℚ) (c1 c2 c3 : Point2D) :
    calcInnerPerpendicular sqrtf c1 c2 c3 = calcPerpendicular sqrtf c1 c2 ∨
    calcInnerPerpendicular sqrtf c1 c2 c3 =
      ⟨-(calcPerpendicular sqrtf c1 c2).x,
       -(calcPerpendicular sqrtf c1 c2).y⟩ := by
  simp only [calcInnerPerpendicular]
  split_ifs with h
  · exact Or.inr rfl
  · exact Or.inl rfl

/-- C5 (amended): for every double (or aromatic) bond whose two endpoints both
have degree greater than 1, are not linear, and whose stereo is not
either/any, the computed line pair consists of one line running exactly from
atom coordinate to atom coordinate and a second parallel line on the
ring-inside or neighbour-inside side, offset by exactly twice the configured
multiple-bond offset (the code doubles the offset before displacing along the
unit inside perpendicular) and shortened by exactly 0.15 of the bond length
at each end. -/
theorem calcDoubleBondLines_inner_case (sqrtf : ℚ → ℚ) (offset : ℚ)
    (env : DoubleBondEnv) (at1_cds at2_cds : Point2D)
    (hd1 : 1 < env.at1Degree) (hd2 : 1 < env.at2Degree)
    (hl1 : env.at1Linear = false) (hl2 : env.at2Linear = false)
    (he : env.eitherDouble = false) (hsa : env.stereoAny = false)
    (hL2 : sqrtf ((at1_cds.y - at2_cds.y) ^ 2 + (at1_cds.x - at2_cds.x) ^ 2) *
        sqrtf ((at1_cds.y - at2_cds.y) ^ 2 + (at1_cds.x - at2_cds.x) ^ 2) =
        (at1_cds.y - at2_cds.y) ^ 2 + (at1_cds.x - at2_cds.x) ^ 2)
    (hLne :
      sqrtf ((at1_cds.y - at2_cds.y) ^ 2 + (at1_cds.x - at2_cds.x) ^ 2) ≠ 0) :
    ∃ u : Point2D,
      isUnitPerp u at1_cds at2_cds ∧
      calcDoubleBondLines sqrtf offset env at1_cds at2_cds =
        (at1_cds, at2_cds,
         at1_cds - (at1_cds - at2_cds) * ((15 : ℚ) / 100) + u * (offset * 2),
         at2_cds + (at1_cds - at2_cds) * ((15 : ℚ) / 100) + u * (offset * 2)) ∧
      (at2_cds + (at1_cds - at2_cds) * ((15 : ℚ) / 100) + u * (offset * 2)).x -
          (at1_cds - (at1_cds - at2_cds) * ((15 : ℚ) / 100) + u * (offset * 2)).x =
        (7 / 10) * (at2_cds.x - at1_cds.x) ∧
      (at2_cds + (at1_cds - at2_cds) * ((15 : ℚ) / 100) + u * (offset * 2)).y -
          (at1_cds - (at1_cds - at2_cds) * ((15 : ℚ) / 100) + u * (offset * 2)).y =
        (7 / 10) * (at2_cds.y - at1_cds.y) ∧
      ((at1_cds - (at1_cds - at2_cds) * ((15 : ℚ) / 100) + u * (offset * 2)).x -
            at1_cds.x) * u.x +
        ((at1_cds - (at1_cds - at2_cds) * ((15 : ℚ) / 100) + u * (offset * 2)).y -
            at1_cds.y) * u.y =
        offset * 2 := by
  have hswapD : (at2_cds.y - at1_cds.y) ^ 2 + (at2_cds.x - at1_cds.x) ^ 2 =
      (at1_cds.y - at2_cds.y) ^ 2 + (at1_cds.x - at2_cds.x) ^ 2 := by ring
  have hL2s : sqrtf ((at2_cds.y - at1_cds.y) ^ 2 + (at2_cds.x - at1_cds.x) ^ 2) *
      sqrtf ((at2_cds.y - at1_cds.y) ^ 2 + (at2_cds.x - at1_cds.x) ^ 2) =
      (at2_cds.y - at1_cds.y) ^ 2 + (at2_cds.x - at1_cds.x) ^ 2 := by
    rw [hswapD]
    exact hL2
  have hLnes :
      sqrtf ((at2_cds.y - at1_cds.y) ^ 2 + (at2_cds.x - at1_cds.x) ^ 2) ≠ 0 := by
    rw [hswapD]
    exact hLne
  have hu : isUnitPerp
      (if env.numBondRings ≠ 0 then bondInsideRing sqrtf env at1_cds at2_cds
       else bondInsideDoubleBond sqrtf env at1_cds at2_cds)
      at1_cds at2_cds := by
    split_ifs with hr
    · cases henv : env.ringThirdAtom with
      | some at3 =>
          simp only [bondInsideRing, henv]
          rcases calcInnerPerpendicular_cases sqrtf at1_cds at2_cds at3 with
            hcase | hcase
          · rw [hcase]
            exact isUnitPerp_calcPerpendicular sqrtf at1_cds at2_cds hL2 hLne
          · rw [hcase]
            exact isUnitPerp_neg _ _ _
              (isUnitPerp_calcPerpendicular sqrtf at1_cds at2_cds hL2 hLne)
      | none =>
          simp only [bondInsideRing, henv]
          exact isUnitPerp_calcPerpendicular sqrtf at1_cds at2_cds hL2 hLne
    · rw [bondInsideDoubleBond, if_pos hd1]
      rcases calcInnerPerpendicular_cases sqrtf at2_cds at1_cds
          env.nbrThirdAtom with hcase | hcase
      · rw [hcase]
        exact isUnitPerp_swap _ _ _
          (isUnitPerp_calcPerpendicular sqrtf at2_cds at1_cds hL2s hLnes)
      · rw [hcase]
        exact isUnitPerp_swap _ _ _ (isUnitPerp_neg _ _ _
          (isUnitPerp_calcPerpendicular sqrtf at2_cds at1_cds hL2s hLnes))
  refine ⟨_, hu, ?_, ?_, ?_, ?_⟩
  · simp only [calcDoubleBondLines]
    rw [if_neg ?hc1, if_neg ?hc2]
    case hc1 =>
      rintro (h | h | h | h)
      · omega
      · omega
      · rw [hl1] at h
        exact Bool.false_ne_true h
      · rw [hl2] at h
        exact Bool.false_ne_true h
    case hc2 =>
      rintro (h | h)
      · rw [he] at h
        exact Bool.false_ne_true h
      · rw [hsa] at h
        exact Bool.false_ne_true h
  · simp only [Point2D.sub_def, Point2D.add_def, Point2D.mul_def]
    ring
  · simp only [Point2D.sub_def, Point2D.add_def, Point2D.mul_def]
    ring
  · simp only [Point2D.sub_def, Point2D.add_def, Point2D.mul_def]
    obtain ⟨hu1, hu2⟩ := hu
    show (at1_cds.x - (at1_cds.x - at2_cds.x) * ((15 : ℚ) / 100) +
        _ * (offset * 2) - at1_cds.x) * _ + _ = offset * 2
    linear_combination (offset * 2) * hu1 - (15 / 100) * hu2

/-- Graph environment of an in-chain double bond with both endpoint degrees 2,
no ring membership, and the neighbour search finding an atom at (0, -1). -/
def dbEnvInner : DoubleBondEnv :=
  { at1Degree := 2, at2Degree := 2, at1Linear := false, at2Linear := false
    eitherDouble := false, stereoAny := false, numBondRings := 0
    ringThirdAtom := none, nbrThirdAtom := ⟨0, -1⟩ }

/-- Begin-atom coordinates used in the double-bond examples. -/
def dbAt1 : Point2D := ⟨0, 0⟩

/-- End-atom coordinates used in the double-bond examples. -/
def dbAt2 : Point2D := ⟨1, 0⟩

theorem calcDoubleBondLines_inner_case_witness :
    (1 < dbEnvInner.at1Degree ∧ 1 < dbEnvInner.at2Degree ∧
     dbEnvInner.at1Linear = false ∧ dbEnvInner.at2Linear = false ∧
     dbEnvInner.eitherDouble = false ∧ dbEnvInner.stereoAny = false ∧
     (fun q : ℚ => q) ((dbAt1.y - dbAt2.y) ^ 2 + (dbAt1.x - dbAt2.x) ^ 2) *
         (fun q : ℚ => q) ((dbAt1.y - dbAt2.y) ^ 2 + (dbAt1.x - dbAt2.x) ^ 2) =
       (dbAt1.y - dbAt2.y) ^ 2 + (dbAt1.x - dbAt2.x) ^ 2 ∧
     (fun q : ℚ => q) ((dbAt1.y - dbAt2.y) ^ 2 + (dbAt1.x - dbAt2.x) ^ 2) ≠ 0) ∧
    ∃ u : Point2D,
      isUnitPerp u dbAt1 dbAt2 ∧
      calcDoubleBondLines (fun q : ℚ => q) (1 / 10) dbEnvInner dbAt1 dbAt2 =
        (dbAt1, dbAt2,
         dbAt1 - (dbAt1 - dbAt2) * ((15 : ℚ) / 100) + u * ((1 : ℚ) / 10 * 2),
         dbAt2 + (dbAt1 - dbAt2) * ((15 : ℚ) / 100) + u * ((1 : ℚ) / 10 * 2)) ∧
      (dbAt2 + (dbAt1 - dbAt2) * ((15 : ℚ) / 100) + u * ((1 : ℚ) / 10 * 2)).x -
          (dbAt1 - (dbAt1 - dbAt2) * ((15 : ℚ) / 100) + u * ((1 : ℚ) / 10 * 2)).x =
        (7 / 10) * (dbAt2.x - dbAt1.x) ∧
      (dbAt2 + (dbAt1 - dbAt2) * ((15 : ℚ) / 100) + u * ((1 : ℚ) / 10 * 2)).y -
          (dbAt1 - (dbAt1 - dbAt2) * ((15 : ℚ) / 100) + u * ((1 : ℚ) / 10 * 2)).y =
        (7 / 10) * (dbAt2.y - dbAt1.y) ∧
      ((dbAt1 - (dbAt1 - dbAt2) * ((15 : ℚ) / 100) + u * ((1 : ℚ) / 10 * 2)).x -
            dbAt1.x) * u.x +
        ((dbAt1 - (dbAt1 - dbAt2) * ((15 : ℚ) / 100) + u * ((1 : ℚ) / 10 * 2)).y -
            dbAt1.y) * u.y =
        (1 : ℚ) / 10 * 2 :=
  ⟨⟨by norm_num [dbEnvInner], by norm_num [dbEnvInner], rfl, rfl, rfl, rfl,
    by norm_num [dbAt1, dbAt2], by norm_num [dbAt1, dbAt2]⟩,
   calcDoubleBondLines_inner_case (fun q : ℚ => q) (1 / 10) dbEnvInner
     dbAt1 dbAt2 (by norm_num [dbEnvInner]) (by norm_num [dbEnvInner])
     rfl rfl rfl rfl
     (by norm_num [dbAt1, dbAt2]) (by norm_num [dbAt1, dbAt2])⟩

/-- C5 counterexample: for the in-chain double bond from (0,0) to (1,0) with
configured multiple-bond offset 1/10, the second line runs from (3/20, -1/5)
to (17/20, -1/5): its perpendicular distance from the atom-atom line (the x
axis) is 1/5 = 2 x (1/10), twice the configured offset, not the configured
offset 1/10 itself as the claim states. -/
theorem calcDoubleBondLines_offset_counterexample :
    calcDoubleBondLines (fun q : ℚ => q) (1 / 10) dbEnvInner ⟨0, 0⟩ ⟨1, 0⟩ =
      (⟨0, 0⟩, ⟨1, 0⟩, ⟨3 / 20, -(1 / 5)⟩, ⟨17 / 20, -(1 / 5)⟩) ∧
    (2 * (1 / 10) : ℚ) = 1 / 5 ∧ ((1 / 5 : ℚ) ≠ 1 / 10) := by
  refine ⟨?_, by norm_num, by norm_num⟩
  norm_num [calcDoubleBondLines, bondInsideDoubleBond, calcInnerPerpendicular,
    calcPerpendicular, dbEnvInner, Point2D.sub_def, Point2D.add_def,
    Point2D.mul_def, Prod.ext_iff]

/-- Modelled from the spec: the String Rectangle (`StringRect`, declared in
DrawText.h, outside this source file) — the axis-aligned bounding box of
rendered text at a given anchor, together with the integer clash score used
to pick the least-bad annotation position.  Only the fields the placement
code touches are modelled; C++ assignment copies all of them, including the
clash score. -/
structure StringRect where
  trans : Point2D
  width : ℚ
  height : ℚ
  clash_score : ℤ
deriving DecidableEq

/-- Modelled from the spec: a default-constructed String Rectangle (zero
anchor and extents, clash score 0). -/
def defaultStringRect : StringRect := ⟨⟨0, 0⟩, 0, 0, 0⟩

/-- Modelled from the spec: an Annotation's placement state — whether its
text is empty, and its target rectangle (`AnnotationType`, declared outside
this source file). -/
structure AnnotationType where
  textEmpty : Bool
  rect : StringRect
deriving DecidableEq

/-- Modelled from the spec: `Point2D::directionVector`, the unit vector from
`p` towards `q` (external geometry library; `sqrtf` is the C square root). -/
def directionVector (sqrtf : ℚ → ℚ) (p q : Point2D) : Point2D :=
  let d := q - p
  let l := sqrtf (d.x * d.x + d.y * d.y)
  ⟨d.x / l, d.y / l⟩

/-- Modelled from the spec: `Point2D::length` (external geometry library). -/
def lengthP (sqrtf : ℚ → ℚ) (p : Point2D) : ℚ := sqrtf (p.x * p.x + p.y * p.y)

/-- The three collision tests that `doesAtomNoteClash` and
`doesBondNoteClash` delegate to (`doesNoteClashNbourBonds`,
`doesNoteClashAtomLabels`, `doesNoteClashOtherNotes`,
MolDraw2D.cpp:3812-3900).  Their geometric internals run through the text
drawer's intersection queries, so they are abstracted as predicates on the
candidate note position. -/
structure ClashTests where
  clashNbourBonds : Point2D → Bool
  clashAtomLabels : Point2D → Bool
  clashOtherNotes : Point2D → Bool

/-- `MolDraw2D::doesAtomNoteClash` (MolDraw2D.cpp:3776-3791): score 1 for a
clash with an incident bond, 2 for a clash with an atom label, 3 for a clash
with a previously placed annotation, 0 for no clash. -/
def doesAtomNoteClash (t : ClashTests) (note_pos : Point2D) : ℤ :=
  if t.clashNbourBonds note_pos then 1
  else if t.clashAtomLabels note_pos then 2
  else if t.clashOtherNotes note_pos then 3
  else 0

/-- `MolDraw2D::doesBondNoteClash` (MolDraw2D.cpp:3794-3809): the same
scoring as `doesAtomNoteClash`, applied at the bond's begin atom. -/
def doesBondNoteClash (t : ClashTests) (note_pos : Point2D) : ℤ :=
  if t.clashNbourBonds note_pos then 1
  else if t.clashAtomLabels note_pos then 2
  else if t.clashOtherNotes note_pos then 3
  else 0

/-- Candidate note translations tried by `calcAnnotationPosition` for a bond
note, in trial order (MolDraw2D.cpp:2063-2097): for each of the five mid
offsets along the bond and each perpendicular multiple j = 1..5 (j = 1 is
skipped when the bond type exceeds single), first the plus side of the bond
and then the minus side. -/
def bondNoteCandidates (sqrtf : ℚ → ℚ) (offset_step : ℚ) (bondType : ℕ)
    (at1_cds at2_cds : Point2D) : List Point2D :=
  let perp := calcPerpendicular sqrtf at1_cds at2_cds
  let bond_vec := directionVector sqrtf at1_cds at2_cds
  let bond_len := lengthP sqrtf (at1_cds - at2_cds)
  let mid_offsets : List ℚ := [1 / 2, 33 / 100, 66 / 100, 1 / 4, 3 / 4]
  mid_offsets.flatMap (fun mo =>
    let mid := at1_cds + bond_vec * bond_len * mo
    (List.range 5).flatMap (fun j0 =>
      let j := j0 + 1
      if j = 1 ∧ 1 < bondType then []
      else
        let offset := (j : ℚ) * offset_step
        [mid + perp * offset, mid - perp * offset]))

/-- Trial loop of `MolDraw2D::calcAnnotationPosition` for bond notes
(MolDraw2D.cpp:2070-2097): each candidate translation is written into the
annotation rectangle and scored by `doesBondNoteClash` at the molecule-space
conversion of the candidate; a clash-free candidate returns immediately;
otherwise `least_worst` tracks the best score seen so far via C++ assignment
(which also copies the rectangle's stale `clash_score_` field).  When the
candidates are exhausted the function body simply ends, so the annotation
keeps the last candidate written into it — `least_worst` is never written
back. -/
def calcAnnotationPositionLoop (st : DrawState) (t : ClashTests)
    (rect least_worst : StringRect) : List Point2D → StringRect
  | [] => rect
  | c :: rest =>
      let rect1 : StringRect := { rect with trans := c }
      let clash_score := doesBondNoteClash t (getAtomCoords st (c.x, c.y))
      if clash_score = 0 then rect1
      else
        let least_worst1 :=
          if clash_score < least_worst.clash_score then rect1 else least_worst
        calcAnnotationPositionLoop st t rect1 least_worst1 rest

/-- `MolDraw2D::calcAnnotationPosition(mol, bond, annot)`
(MolDraw2D.cpp:2042-2100): resolve a bond-note position.  An empty note text
marks the rectangle invalid (width -1); the candidate scan then runs with a
fresh least-worst tracker initialised to clash score 100. -/
def calcAnnotationPosition (sqrtf : ℚ → ℚ) (st : DrawState)
    (opts : MolDrawOptions) (t : ClashTests) (bondType : ℕ)
    (at1_cds at2_cds : Point2D) (annot : AnnotationType) : StringRect :=
  let rect0 :=
    if annot.textEmpty then { annot.rect with width := -1 } else annot.rect
  calcAnnotationPositionLoop st t rect0
    { defaultStringRect with clash_score := 100 }
    (bondNoteCandidates sqrtf opts.multipleBondOffset bondType at1_cds at2_cds)

/-- Candidate note translations tried by `calcAtomAnnotationPosition`
(MolDraw2D.cpp:2123-2148), in trial order: radii j * 0.25 for j = 1..3 (j = 1
skipped when the atom carries a symbol), and for each radius twelve 30-degree
steps from the start angle.  `pi`, `cosf` and `sinf` stand for the C math
library's constant and functions. -/
def atomNoteCandidates (pi : ℚ) (cosf sinf : ℚ → ℚ) (atsymEmpty : Bool)
    (start_ang : ℚ) (at_cds : Point2D) : List Point2D :=
  let rad_step : ℚ := 1 / 4
  (List.range 3).flatMap (fun j0 =>
    let j := j0 + 1
    let note_rad := (j : ℚ) * rad_step
    if j = 1 ∧ atsymEmpty = false then []
    else
      (List.range 12).map (fun i =>
        let ang := start_ang + (i : ℚ) * 30 * pi / 180
        ⟨at_cds.x + cosf ang * note_rad, at_cds.y + sinf ang * note_rad⟩))

/-- Trial loop of `MolDraw2D::calcAtomAnnotationPosition`
(MolDraw2D.cpp:2126-2150): identical stepping to the bond-note loop (scored
by `doesAtomNoteClash`), but when the candidates are exhausted the function
stores `least_worst` back into the annotation. -/
def calcAtomAnnotationPositionLoop (st : DrawState) (t : ClashTests)
    (rect least_worst : StringRect) : List Point2D → StringRect
  | [] => least_worst
  | c :: rest =>
      let rect1 : StringRect := { rect with trans := c }
      let clash_score := doesAtomNoteClash t (getAtomCoords st (c.x, c.y))
      if clash_score = 0 then rect1
      else
        let least_worst1 :=
          if clash_score < least_worst.clash_score then rect1 else least_worst
        calcAtomAnnotationPositionLoop st t rect1 least_worst1 rest

/-- `MolDraw2D::calcAtomAnnotationPosition` (MolDraw2D.cpp:2103-2151):
resolve an atom-note position over the radial candidate scan. -/
def calcAtomAnnotationPosition (pi : ℚ) (cosf sinf : ℚ → ℚ) (st : DrawState)
    (t : ClashTests) (atsymEmpty : Bool) (start_ang : ℚ) (at_cds : Point2D)
    (annot : AnnotationType) : StringRect :=
  calcAtomAnnotationPositionLoop st t annot.rect
    { defaultStringRect with clash_score := 100 }
    (atomNoteCandidates pi cosf sinf atsymEmpty start_ang at_cds)

theorem doesAtomNoteClash_nonneg (t : ClashTests) (p : Point2D) :
    0 ≤ doesAtomNoteClash t p := by
  unfold doesAtomNoteClash
  split_ifs <;> norm_num

theorem doesAtomNoteClash_le_three (t : ClashTests) (p : Point2D) :
    doesAtomNoteClash t p ≤ 3 := by
  unfold doesAtomNoteClash
  split_ifs <;> norm_num

theorem calcAnnotationPositionLoop_all_clash (st : DrawState) (t : ClashTests) :
    ∀ (cands : List Point2D) (rect lw : StringRect) (l : Point2D),
      cands.getLast? = some l →
      (∀ c ∈ cands,
        doesBondNoteClash t (getAtomCoords st (c.x, c.y)) ≠ 0) →
      calcAnnotationPositionLoop st t rect lw cands = { rect with trans := l }
  | [], rect, lw, l, hlast, _ => by simp at hlast
  | c :: rest, rect, lw, l, hlast, hall => by
      have hc : doesBondNoteClash t (getAtomCoords st (c.x, c.y)) ≠ 0 :=
        hall c (List.mem_cons_self c rest)
      rw [calcAnnotationPositionLoop]
      simp only [if_neg hc]
      cases rest with
      | nil =>
          have : l = c := by
            simp [List.getLast?] at hlast
            exact hlast.symm
          subst this
          rw [calcAnnotationPositionLoop]
      | cons r rs =>
          have hlast2 : (r :: rs).getLast? = some l := by
            rwa [List.getLast?_cons_cons] at hlast
          have hall2 : ∀ c2 ∈ r :: rs,
              doesBondNoteClash t (getAtomCoords st (c2.x, c2.y)) ≠ 0 :=
            fun c2 h2 => hall c2 (List.mem_cons_of_mem c h2)
          rw [calcAnnotationPositionLoop_all_clash st t (r :: rs) _ _ l hlast2
            hall2]

theorem calcAtomAnnotationPositionLoop_stable (st : DrawState)
    (t : ClashTests) :
    ∀ (cands : List Point2D) (rect lw : StringRect),
      lw.clash_score = 0 →
      (∀ c ∈ cands,
        doesAtomNoteClash t (getAtomCoords st (c.x, c.y)) ≠ 0) →
      calcAtomAnnotationPositionLoop st t rect lw cands = lw
  | [], rect, lw, hlw, _ => by rw [calcAtomAnnotationPositionLoop]
  | c :: rest, rect, lw, hlw, hall => by
      have hc : doesAtomNoteClash t (getAtomCoords st (c.x, c.y)) ≠ 0 :=
        hall c (List.mem_cons_self c rest)
      have hge : ¬ doesAtomNoteClash t (getAtomCoords st (c.x, c.y)) <
          lw.clash_score := by
        rw [hlw]
        exact not_lt.mpr (doesAtomNoteClash_nonneg t _)
      rw [calcAtomAnnotationPositionLoop]
      simp only [if_neg hc, if_neg hge]
      exact calcAtomAnnotationPositionLoop_stable st t rest _ lw hlw
        (fun c2 h2 => hall c2 (List.mem_cons_of_mem c h2))

theorem calcAtomAnnotationPositionLoop_first (st : DrawState) (t : ClashTests)
    (cands : List Point2D) (rect lw : StringRect) (c0 : Point2D)
    (hhead : cands.head? = some c0)
    (hlw : lw.clash_score = 100) (hrect : rect.clash_score = 0)
    (hall : ∀ c ∈ cands,
      doesAtomNoteClash t (getAtomCoords st (c.x, c.y)) ≠ 0) :
    calcAtomAnnotationPositionLoop st t rect lw cands =
      { rect with trans := c0 } := by
  cases cands with
  | nil => simp at hhead
  | cons c rest =>
      have hc0 : c0 = c := by
        simp [List.head?] at hhead
        exact hhead.symm
      subst hc0
      have hc : doesAtomNoteClash t (getAtomCoords st (c0.x, c0.y)) ≠ 0 :=
        hall c0 (List.mem_cons_self c0 rest)
      have hlt : doesAtomNoteClash t (getAtomCoords st (c0.x, c0.y)) <
          lw.clash_score := by
        rw [hlw]
        exact lt_of_le_of_lt (doesAtomNoteClash_le_three t _) (by norm_num)
      rw [calcAtomAnnotationPositionLoop]
      simp only [if_neg hc, if_pos hlt]
      have hlw1 : ({ rect with trans := c0 } : StringRect).clash_score = 0 :=
        hrect
      exact calcAtomAnnotationPositionLoop_stable st t rest _ _ hlw1
        (fun c2 h2 => hall c2 (List.mem_cons_of_mem c0 h2))

/-- C3 (amended): when none of the tried candidate positions is clash-free,
the position finally stored is not the tried position of lowest clash
severity.  For a bond note the least-bad tracker is computed but never
written back, so the annotation keeps the last tried position; for an atom
note each new score is compared against the clash-score field that C++
assignment copied from the annotation's own rectangle (0 for a freshly
created annotation), so no later candidate ever replaces the first tried
one, and the first tried position is stored. -/
theorem annotationPosition_no_clash_free (sqrtf : ℚ → ℚ) (pi : ℚ)
    (cosf sinf : ℚ → ℚ) (st : DrawState) (opts : MolDrawOptions)
    (t : ClashTests) (bondType : ℕ) (at1_cds at2_cds at_cds : Point2D)
    (atsymEmpty : Bool) (start_ang : ℚ) (annotB annotA : AnnotationType)
    (lB lA : Point2D)
    (hBtext : annotB.textEmpty = false)
    (hBlast : (bondNoteCandidates sqrtf opts.multipleBondOffset bondType
        at1_cds at2_cds).getLast? = some lB)
    (hBall : ∀ c ∈ bondNoteCandidates sqrtf opts.multipleBondOffset bondType
        at1_cds at2_cds,
      doesBondNoteClash t (getAtomCoords st (c.x, c.y)) ≠ 0)
    (hAhead : (atomNoteCandidates pi cosf sinf atsymEmpty start_ang
        at_cds).head? = some lA)
    (hAclash : annotA.rect.clash_score = 0)
    (hAall : ∀ c ∈ atomNoteCandidates pi cosf sinf atsymEmpty start_ang
        at_cds,
      doesAtomNoteClash t (getAtomCoords st (c.x, c.y)) ≠ 0) :
    calcAnnotationPosition sqrtf st opts t bondType at1_cds at2_cds annotB =
      { annotB.rect with trans := lB } ∧
    calcAtomAnnotationPosition pi cosf sinf st t atsymEmpty start_ang at_cds
        annotA =
      { annotA.rect with trans := lA } := by
  constructor
  · simp only [calcAnnotationPosition]
    rw [if_neg (by simp [hBtext])]
    exact calcAnnotationPositionLoop_all_clash st t _ _ _ lB hBlast hBall
  · simp only [calcAtomAnnotationPosition]
    exact calcAtomAnnotationPositionLoop_first st t _ _ _ lA hAhead rfl
      hAclash hAall

theorem bondNoteCandidates_eval :
    bondNoteCandidates (fun q : ℚ => q) (1 / 10) 1 ⟨0, 0⟩ ⟨1, 0⟩ =
      [⟨1 / 2, -(1 / 10)⟩,
       ⟨1 / 2, 1 / 10⟩,
       ⟨1 / 2, -(1 / 5)⟩,
       ⟨1 / 2, 1 / 5⟩,
       ⟨1 / 2, -(3 / 10)⟩,
       ⟨1 / 2, 3 / 10⟩,
       ⟨1 / 2, -(2 / 5)⟩,
       ⟨1 / 2, 2 / 5⟩,
       ⟨1 / 2, -(1 / 2)⟩,
       ⟨1 / 2, 1 / 2⟩,
       ⟨33 / 100, -(1 / 10)⟩,
       ⟨33 / 100, 1 / 10⟩,
       ⟨33 / 100, -(1 / 5)⟩,
       ⟨33 / 100, 1 / 5⟩,
       ⟨33 / 100, -(3 / 10)⟩,
       ⟨33 / 100, 3 / 10⟩,
       ⟨33 / 100, -(2 / 5)⟩,
       ⟨33 / 100, 2 / 5⟩,
       ⟨33 / 100, -(1 / 2)⟩,
       ⟨33 / 100, 1 / 2⟩,
       ⟨66 / 100, -(1 / 10)⟩,
       ⟨66 / 100, 1 / 10⟩,
       ⟨66 / 100, -(1 / 5)⟩,
       ⟨66 / 100, 1 / 5⟩,
       ⟨66 / 100, -(3 / 10)⟩,
       ⟨66 / 100, 3 / 10⟩,
       ⟨66 / 100, -(2 / 5)⟩,
       ⟨66 / 100, 2 / 5⟩,
       ⟨66 / 100, -(1 / 2)⟩,
       ⟨66 / 100, 1 / 2⟩,
       ⟨1 / 4, -(1 / 10)⟩,
       ⟨1 / 4, 1 / 10⟩,
       ⟨1 / 4, -(1 / 5)⟩,
       ⟨1 / 4, 1 / 5⟩,
       ⟨1 / 4, -(3 / 10)⟩,
       ⟨1 / 4, 3 / 10⟩,
       ⟨1 / 4, -(2 / 5)⟩,
       ⟨1 / 4, 2 / 5⟩,
       ⟨1 / 4, -(1 / 2)⟩,
       ⟨1 / 4, 1 / 2⟩,
       ⟨3 / 4, -(1 / 10)⟩,
       ⟨3 / 4, 1 / 10⟩,
       ⟨3 / 4, -(1 / 5)⟩,
       ⟨3 / 4, 1 / 5⟩,
       ⟨3 / 4, -(3 / 10)⟩,
       ⟨3 / 4, 3 / 10⟩,
       ⟨3 / 4, -(2 / 5)⟩,
       ⟨3 / 4, 2 / 5⟩,
       ⟨3 / 4, -(1 / 2)⟩,
       ⟨3 / 4, 1 / 2⟩] := by
  have hr5 : List.range 5 = [0, 1, 2, 3, 4] := rfl
  simp only [bondNoteCandidates, calcPerpendicular, directionVector, lengthP,
    Point2D.sub_def, Point2D.add_def, Point2D.mul_def, hr5,
    List.flatMap_cons, List.flatMap_nil, List.append_nil]
  norm_num

/-- Trivial transform state (unit scale, zero minima, offsets and legend),
under which `getAtomCoords` maps a device point (x, y) to (x, -y). -/
def annotSt : DrawState :=
  { scale := 1, x_min := 0, y_min := 0, x_range := 0, y_range := 0
    x_trans := 0, y_trans := 0, x_offset := 0, y_offset := 0
    panelHeight := 0, legendHeight := 0 }

/-- Options with the default multiple-bond offset of the annotation
examples. -/
def annotOpts : MolDrawOptions :=
  { padding := 0, fixedScale := 0, fixedBondLength := 0
    multipleBondOffset := 1 / 10 }

/-- Clash environment in which the note position (1/2, 1/10) clashes only
with another annotation (score 3), the position (3/4, -1/2) clashes only
with an atom label (score 2), and every other position clashes with an
incident bond (score 1): no position is clash-free. -/
def cexTests : ClashTests :=
  { clashNbourBonds := fun p =>
      !(decide (p = ⟨1 / 2, 1 / 10⟩) || decide (p = ⟨3 / 4, -(1 / 2)⟩))
    clashAtomLabels := fun p => decide (p = ⟨3 / 4, -(1 / 2)⟩)
    clashOtherNotes := fun p => decide (p = ⟨1 / 2, 1 / 10⟩) }

theorem cexTests_bond_never_zero (p : Point2D) :
    doesBondNoteClash cexTests p ≠ 0 := by
  simp only [doesBondNoteClash, cexTests]
  split_ifs with h1 h2 h3
  · norm_num
  · norm_num
  · norm_num
  · exfalso
    cases hA : decide (p = ⟨1 / 2, 1 / 10⟩) with
    | true => exact h3 hA
    | false =>
        cases hB : decide (p = ⟨3 / 4, -(1 / 2)⟩) with
        | true => exact h2 hB
        | false => exact h1 (by rw [hA, hB]; rfl)

theorem cexTests_atom_never_zero (p : Point2D) :
    doesAtomNoteClash cexTests p ≠ 0 := by
  simp only [doesAtomNoteClash, cexTests]
  split_ifs with h1 h2 h3
  · norm_num
  · norm_num
  · norm_num
  · exfalso
    cases hA : decide (p = ⟨1 / 2, 1 / 10⟩) with
    | true => exact h3 hA
    | false =>
        cases hB : decide (p = ⟨3 / 4, -(1 / 2)⟩) with
        | true => exact h2 hB
        | false => exact h1 (by rw [hA, hB]; rfl)

/-- C3 counterexample: a bond note on the single bond from (0,0) to (1,0)
(multiple-bond offset 1/10, identity transform), in an environment where no
tried position is clash-free.  The tried position (1/2, -1/10) has the least
severe clash under the claimed ranking — score 3, a clash with a previously
placed annotation only — yet the function stores the last tried position
(3/4, 1/2), whose clash is with an atom label (score 2): the least-bad
rectangle is computed but never written back, so the stored position is
neither the least-severe one (under the claimed ranking) nor the
lowest-score one. -/
theorem calcAnnotationPosition_counterexample :
    calcAnnotationPosition (fun q : ℚ => q) annotSt annotOpts cexTests 1
        ⟨0, 0⟩ ⟨1, 0⟩ ⟨false, ⟨⟨9, 9⟩, 1, 1, 0⟩⟩ =
      ⟨⟨3 / 4, 1 / 2⟩, 1, 1, 0⟩ ∧
    doesBondNoteClash cexTests
        (getAtomCoords annotSt (3 / 4, 1 / 2)) = 2 ∧
    (⟨1 / 2, -(1 / 10)⟩ : Point2D) ∈
      bondNoteCandidates (fun q : ℚ => q) annotOpts.multipleBondOffset 1
        ⟨0, 0⟩ ⟨1, 0⟩ ∧
    doesBondNoteClash cexTests
        (getAtomCoords annotSt (1 / 2, -(1 / 10))) = 3 ∧
    (∀ c ∈ bondNoteCandidates (fun q : ℚ => q) annotOpts.multipleBondOffset 1
        ⟨0, 0⟩ ⟨1, 0⟩,
      doesBondNoteClash cexTests (getAtomCoords annotSt (c.x, c.y)) ≠ 0) ∧
    (⟨3 / 4, 1 / 2⟩ : Point2D) ≠ ⟨1 / 2, -(1 / 10)⟩ := by
  have hmbo : annotOpts.multipleBondOffset = 1 / 10 := rfl
  refine ⟨?_, ?_, ?_, ?_, ?_, ?_⟩
  · simp only [calcAnnotationPosition, hmbo]
    rw [if_neg (by simp)]
    rw [calcAnnotationPositionLoop_all_clash annotSt cexTests _ _ _
      ⟨3 / 4, 1 / 2⟩ (by rw [bondNoteCandidates_eval]; rfl)
      (fun c _ => cexTests_bond_never_zero _)]
  · have hp : getAtomCoords annotSt ((3 : ℚ) / 4, (1 : ℚ) / 2) =
        ⟨3 / 4, -(1 / 2)⟩ := by
      rw [Point2D.ext_iff]
      constructor <;> norm_num [getAtomCoords, annotSt]
    rw [hp]
    norm_num [doesBondNoteClash, cexTests, Point2D.ext_iff]
  · rw [hmbo, bondNoteCandidates_eval]
    simp
  · have hp : getAtomCoords annotSt ((1 : ℚ) / 2, -((1 : ℚ) / 10)) =
        ⟨1 / 2, 1 / 10⟩ := by
      rw [Point2D.ext_iff]
      constructor <;> norm_num [getAtomCoords, annotSt]
    rw [hp]
    norm_num [doesBondNoteClash, cexTests, Point2D.ext_iff]
  · exact fun c _ => cexTests_bond_never_zero _
  · intro h
    rw [Point2D.mk.injEq] at h
    norm_num at h

theorem atomNoteCandidates_head :
    (atomNoteCandidates 0 (fun _ : ℚ => 1) (fun _ : ℚ => 0) true 0
        ⟨0, 0⟩).head? = some ⟨1 / 4, 0⟩ := by
  have hr3 : List.range 3 = [0, 1, 2] := rfl
  have hr12 : List.range 12 = [0, 1, 2, 3, 4, 5, 6, 7, 8, 9, 10, 11] := rfl
  simp only [atomNoteCandidates, hr3, hr12, List.flatMap_cons,
    List.flatMap_nil, List.append_nil, List.map_cons, List.map_nil]
  norm_num

/-- Annotation used in the no-clash-free-position examples: nonempty text,
rectangle anchored at (9,9) with unit extents and the default clash score
0. -/
def annotEx : AnnotationType := ⟨false, ⟨⟨9, 9⟩, 1, 1, 0⟩⟩

theorem annotationPosition_no_clash_free_witness :
    (annotEx.textEmpty = false ∧
     (bondNoteCandidates (fun q : ℚ => q) annotOpts.multipleBondOffset 1
         ⟨0, 0⟩ ⟨1, 0⟩).getLast? = some ⟨3 / 4, 1 / 2⟩ ∧
     (∀ c ∈ bondNoteCandidates (fun q : ℚ => q) annotOpts.multipleBondOffset 1
         ⟨0, 0⟩ ⟨1, 0⟩,
       doesBondNoteClash cexTests (getAtomCoords annotSt (c.x, c.y)) ≠ 0) ∧
     (atomNoteCandidates 0 (fun _ : ℚ => 1) (fun _ : ℚ => 0) true 0
         ⟨0, 0⟩).head? = some ⟨1 / 4, 0⟩ ∧
     annotEx.rect.clash_score = 0 ∧
     (∀ c ∈ atomNoteCandidates 0 (fun _ : ℚ => 1) (fun _ : ℚ => 0) true 0
         ⟨0, 0⟩,
       doesAtomNoteClash cexTests (getAtomCoords annotSt (c.x, c.y)) ≠ 0)) ∧
    (calcAnnotationPosition (fun q : ℚ => q) annotSt annotOpts cexTests 1
        ⟨0, 0⟩ ⟨1, 0⟩ annotEx = { annotEx.rect with trans := ⟨3 / 4, 1 / 2⟩ } ∧
     calcAtomAnnotationPosition 0 (fun _ : ℚ => 1) (fun _ : ℚ => 0) annotSt
        cexTests true 0 ⟨0, 0⟩ annotEx =
       { annotEx.rect with trans := ⟨1 / 4, 0⟩ }) :=
  ⟨⟨rfl, by rw [show annotOpts.multipleBondOffset = (1 : ℚ) / 10 from rfl,
       bondNoteCandidates_eval]; rfl,
    fun c _ => cexTests_bond_never_zero _, atomNoteCandidates_head, rfl,
    fun c _ => cexTests_atom_never_zero _⟩,
   annotationPosition_no_clash_free (fun q : ℚ => q) 0 (fun _ : ℚ => 1)
     (fun _ : ℚ => 0) annotSt annotOpts cexTests 1 ⟨0, 0⟩ ⟨1, 0⟩ ⟨0, 0⟩ true 0
     annotEx annotEx ⟨3 / 4, 1 / 2⟩ ⟨1 / 4, 0⟩ rfl
     (by rw [show annotOpts.multipleBondOffset = (1 : ℚ) / 10 from rfl,
        bondNoteCandidates_eval]; rfl)
     (fun c _ => cexTests_bond_never_zero _) atomNoteCandidates_head rfl
     (fun c _ => cexTests_atom_never_zero _)⟩

/-- Canvas commands emitted by the query-bond renderer, reduced to their
geometry: plain lines, lines drawn while the short-dash or the dotted
pattern is set, polygons, and ellipses (dash pattern lengths and colours are
not modelled). -/
inductive DrawCmd where
  | line (p1 p2 : Point2D) : DrawCmd
  | dashLine (p1 p2 : Point2D) : DrawCmd
  | dottedLine (p1 p2 : Point2D) : DrawCmd
  | polygon (pts : List Point2D) : DrawCmd
  | ellipse (p1 p2 : Point2D) : DrawCmd
deriving DecidableEq

/-- A child of a bond query, reduced to what the dispatcher reads: its
description string and negation flag. -/
structure QueryChild where
  description : String
  negation : Bool
deriving DecidableEq

/-- A bond query as `drawQueryBond` consumes it: description, negation flag,
and children. -/
structure BondQuery where
  description : String
  negation : Bool
  children : List QueryChild
deriving DecidableEq

/-- `drawBondLine` (MolDraw2D.cpp:2978-2995): draw a bond line, split at the
midpoint into two halves when `splitBonds` is set.  The per-half hit-testing
tags are not modelled; `cmd` records the dash pattern active at the call. -/
def drawBondLine (cmd : Point2D → Point2D → DrawCmd) (splitBonds : Bool)
    (cds1 cds2 : Point2D) : List DrawCmd :=
  if !splitBonds then [cmd cds1 cds2]
  else
    let midp := (cds1 + cds2) / (2 : ℚ)
    [cmd cds1 midp, cmd midp cds2]

/-- `drawQueryBond` (MolDraw2D.cpp:3253-3394): the query-bond dispatcher,
modelled as the list of geometry commands sent to the canvas.  Colour and
active-atom bookkeeping are omitted; a line drawn while the short-dash
(`tdash`) or dotted pattern is set appears as `dashLine` or `dottedLine`.
For the `BondAnd` order-plus-ring query the embedded `drawNormalBond` call
is abstracted by `normalBondCmds`, the commands that call would emit. -/
def drawQueryBond (sqrtf : ℚ → ℚ) (splitBonds : Bool) (qry : BondQuery)
    (env : DoubleBondEnv) (normalBondCmds : List DrawCmd)
    (at1_cds at2_cds : Point2D) (double_bond_offset : ℚ) : List DrawCmd :=
  let midp := (at2_cds + at1_cds) / (2 : ℚ)
  if qry.description = "SingleOrDoubleBond" then
    let r := calcDoubleBondLines sqrtf double_bond_offset env midp at2_cds
    [DrawCmd.line at1_cds midp, DrawCmd.line r.1 r.2.1,
     DrawCmd.line r.2.2.1 r.2.2.2]
  else if qry.description = "SingleOrAromaticBond" then
    let r := calcDoubleBondLines sqrtf double_bond_offset env midp at2_cds
    [DrawCmd.line at1_cds midp, DrawCmd.line r.1 r.2.1,
     DrawCmd.dashLine r.2.2.1 r.2.2.2]
  else if qry.description = "DoubleOrAromaticBond" then
    let r1 := calcDoubleBondLines sqrtf double_bond_offset env at1_cds midp
    let r2 := calcDoubleBondLines sqrtf double_bond_offset env midp at2_cds
    [DrawCmd.line r1.1 r1.2.1, DrawCmd.dashLine r1.2.2.1 r1.2.2.2,
     DrawCmd.line r2.1 r2.2.1, DrawCmd.dashLine r2.2.2.1 r2.2.2.2]
  else if qry.description = "BondNull" then
    drawBondLine DrawCmd.dashLine splitBonds at1_cds at2_cds
  else if qry.description = "BondAnd" ∧ qry.children.length = 2 then
    match qry.children with
    | [c1, c2] =>
        let q1 := if c2.description = "BondOrder" then c2 else c1
        let q2 := if c2.description = "BondOrder" then c1 else c2
        if q1.description = "BondOrder" ∧ q2.description = "BondInRing" then
          normalBondCmds ++
            (if !q2.negation then
              let segment := (at2_cds - at1_cds) /
                (lengthP sqrtf (at2_cds - at1_cds) * 6)
              let r1 : Point2D :=
                ⟨(1 / 2 : ℚ) * segment.x - (866 / 1000) * segment.y,
                 (866 / 1000) * segment.x + (1 / 2) * segment.y⟩
              let r2 : Point2D :=
                ⟨(1 / 2 : ℚ) * r1.x - (866 / 1000) * r1.y,
                 (866 / 1000) * r1.x + (1 / 2) * r1.y⟩
              [DrawCmd.polygon
                [midp + segment, midp + r1, midp + r2, midp - segment,
                 midp - r1, midp - r2, midp + segment]]
            else
              let segment := (at2_cds - at1_cds) /
                (lengthP sqrtf (at2_cds - at1_cds) * 10)
              let l := lengthP sqrtf segment
              [DrawCmd.ellipse (midp + segment + ⟨l, l⟩)
                 (midp + segment - ⟨l, l⟩),
               DrawCmd.ellipse (midp - segment + ⟨l, l⟩)
                 (midp - segment - ⟨l, l⟩)])
        else drawBondLine DrawCmd.dottedLine splitBonds at1_cds at2_cds
    | _ => drawBondLine DrawCmd.dottedLine splitBonds at1_cds at2_cds
  else drawBondLine DrawCmd.dottedLine splitBonds at1_cds at2_cds

/-- C8 (amended): for every query bond whose query description is
`SingleOrDoubleBond`, the dispatcher draws a plain single-line segment over
the first half of the bond, starting at the begin atom and ending at the
bond midpoint, and a double-bond (two-line) segment, computed by
`calcDoubleBondLines`, over the remaining half from the midpoint to the end
atom. -/
theorem drawQueryBond_singleOrDouble (sqrtf : ℚ → ℚ) (splitBonds : Bool)
    (qry : BondQuery) (env : DoubleBondEnv) (normalBondCmds : List DrawCmd)
    (at1_cds at2_cds : Point2D) (double_bond_offset : ℚ)
    (hdesc : qry.description = "SingleOrDoubleBond") :
    drawQueryBond sqrtf splitBonds qry env normalBondCmds at1_cds at2_cds
        double_bond_offset =
      [DrawCmd.line at1_cds ((at2_cds + at1_cds) / (2 : ℚ)),
       DrawCmd.line
         (calcDoubleBondLines sqrtf double_bond_offset env
           ((at2_cds + at1_cds) / (2 : ℚ)) at2_cds).1
         (calcDoubleBondLines sqrtf double_bond_offset env
           ((at2_cds + at1_cds) / (2 : ℚ)) at2_cds).2.1,
       DrawCmd.line
         (calcDoubleBondLines sqrtf double_bond_offset env
           ((at2_cds + at1_cds) / (2 : ℚ)) at2_cds).2.2.1
         (calcDoubleBondLines sqrtf double_bond_offset env
           ((at2_cds + at1_cds) / (2 : ℚ)) at2_cds).2.2.2] ∧
    (at2_cds + at1_cds) / (2 : ℚ) - at1_cds =
      (at2_cds - at1_cds) * ((1 : ℚ) / 2) := by
  constructor
  · simp only [drawQueryBond]
    rw [if_pos hdesc]
  · rw [Point2D.ext_iff]
    constructor <;>
      simp only [Point2D.sub_def, Point2D.add_def, Point2D.mul_def,
        Point2D.div_def] <;> ring

/-- Graph environment of the query-bond example: begin atom of degree 1, so
the double-bond segment uses the symmetric two-line form. -/
def qbEnv : DoubleBondEnv :=
  { at1Degree := 1, at2Degree := 2, at1Linear := false, at2Linear := false
    eitherDouble := false, stereoAny := false, numBondRings := 0
    ringThirdAtom := none, nbrThirdAtom := ⟨0, 0⟩ }

/-- The single-or-double bond query. -/
def sdQuery : BondQuery := ⟨"SingleOrDoubleBond", false, []⟩

theorem drawQueryBond_singleOrDouble_witness :
    sdQuery.description = "SingleOrDoubleBond" ∧
    (drawQueryBond (fun q : ℚ => if q = 1 / 4 then 1 / 2 else q) false sdQuery
        qbEnv [] ⟨0, 0⟩ ⟨1, 0⟩ (1 / 10) =
      [DrawCmd.line ⟨0, 0⟩ (((⟨1, 0⟩ : Point2D) + ⟨0, 0⟩) / (2 : ℚ)),
       DrawCmd.line
         (calcDoubleBondLines (fun q : ℚ => if q = 1 / 4 then 1 / 2 else q)
           (1 / 10) qbEnv (((⟨1, 0⟩ : Point2D) + ⟨0, 0⟩) / (2 : ℚ)) ⟨1, 0⟩).1
         (calcDoubleBondLines (fun q : ℚ => if q = 1 / 4 then 1 / 2 else q)
           (1 / 10) qbEnv (((⟨1, 0⟩ : Point2D) + ⟨0, 0⟩) / (2 : ℚ)) ⟨1, 0⟩).2.1,
       DrawCmd.line
         (calcDoubleBondLines (fun q : ℚ => if q = 1 / 4 then 1 / 2 else q)
           (1 / 10) qbEnv (((⟨1, 0⟩ : Point2D) + ⟨0, 0⟩) / (2 : ℚ))
           ⟨1, 0⟩).2.2.1
         (calcDoubleBondLines (fun q : ℚ => if q = 1 / 4 then 1 / 2 else q)
           (1 / 10) qbEnv (((⟨1, 0⟩ : Point2D) + ⟨0, 0⟩) / (2 : ℚ))
           ⟨1, 0⟩).2.2.2] ∧
     ((⟨1, 0⟩ : Point2D) + ⟨0, 0⟩) / (2 : ℚ) - ⟨0, 0⟩ =
       ((⟨1, 0⟩ : Point2D) - ⟨0, 0⟩) * ((1 : ℚ) / 2)) :=
  ⟨rfl,
   drawQueryBond_singleOrDouble (fun q : ℚ => if q = 1 / 4 then 1 / 2 else q)
     false sdQuery qbEnv [] ⟨0, 0⟩ ⟨1, 0⟩ (1 / 10) rfl⟩

/-- C8 counterexample: for the single-or-double query bond from (0,0) to
(1,0), the dispatcher emits the plain segment from (0,0) to the midpoint
(1/2, 0) — one half of the bond — and the two double-bond lines over the
remaining half, from x = 1/2 to x = 1.  The claim's one-third split point
would be (1/3, 0), which differs from the emitted (1/2, 0). -/
theorem drawQueryBond_singleOrDouble_counterexample :
    drawQueryBond (fun q : ℚ => if q = 1 / 4 then 1 / 2 else q) false sdQuery
        qbEnv [] ⟨0, 0⟩ ⟨1, 0⟩ (1 / 10) =
      [DrawCmd.line ⟨0, 0⟩ ⟨1 / 2, 0⟩,
       DrawCmd.line ⟨1 / 2, -(1 / 10)⟩ ⟨1, -(1 / 10)⟩,
       DrawCmd.line ⟨1 / 2, 1 / 10⟩ ⟨1, 1 / 10⟩] ∧
    (⟨1 / 2, 0⟩ : Point2D) ≠ ⟨1 / 3, 0⟩ := by
  constructor
  · norm_num [drawQueryBond, sdQuery, calcDoubleBondLines, calcPerpendicular,
      qbEnv, Point2D.sub_def, Point2D.add_def, Point2D.mul_def,
      Point2D.div_def, Point2D.ext_iff]
  · intro h
    rw [Point2D.mk.injEq] at h
    norm_num at h
